import Mathlib

/-!
Verification development for the management-cockpit-crm repository.

This file gives a shallow embedding of the SCD2 (slowly
changing dimension, type 2) versioning core and proves or refutes the
frozen claims about it.

Modelling conventions, each justified against the source:

* Timestamps are `Int`.  The code only ever compares timestamps with the
  orders `<=` / `>` (queries in `entity/services/asof.py`,
  `entity/services/diff.py`, interval construction in
  `entity/services/update.py`), so any linear order is faithful;
  `DateTimeValidationService.parse_datetime` (referenced from
  `entity/services/update.py` but implemented like
  `services/datetime.py`, `DateTimeService.validate_and_parse`) performs
  format-only validation and is modelled as the identity on already
  well-formed timestamps.
* SHA-256 digests are modelled injectively by their pre-image payload
  string: the code computes `sha256(payload).hexdigest()` and only ever
  compares digests for equality, so up to hash collisions digest
  equality is payload equality.  Every hash definition below spells out
  the exact payload string the source feeds to sha256.
* Django rows are records in lists; the `id` field is the autoincrement
  primary key, `nextEntityId` / `nextDetailId` model the sequences, and
  `nextUid` models `uuid4` freshness for `entity_uid`.
* The declarative database constraints of `entity/models/entity.py` and
  `entity/models/detail.py` (`UniqueConstraint(entity_uid | entity,
  detail_type; condition is_current)` and the `[)`-range
  `ExclusionConstraint`s, plus the PostgreSQL requirement that a
  `tstzrange` lower bound is `<=` its upper bound) are enforced by the
  checked insert/save functions below; a failed check makes the whole
  operation return `Except.error`, modelling the transaction rollback of
  `transaction.atomic`.
* Foreign keys to the `EntityType` / `DetailType` vocabularies are
  modelled by carrying the referenced `(id, code)` pair on each row and
  payload (`TypeRef`); the source compares them by primary key and reads
  `.code` through the join.
-/

/-- Python `str.strip()` on the character list of a string. -/
def pyStripChars (l : List Char) : List Char :=
  ((l.dropWhile Char.isWhitespace).reverse.dropWhile Char.isWhitespace).reverse

/-- Python `s.strip().lower()`, the normalization used by every hash in the
source (`services/hash.py` `HashService.normalize_string`, and the inline
`strip().lower()` calls in `entity/services/update.py` and
`entity/models/entity.py`). -/
def pyNormalize (s : String) : String :=
  String.mk ((pyStripChars s.data).map Char.toLower)

/-- Join a list of strings with the fixed delimiter, as
`"|".join(...)` in `services/hash.py`. -/
def joinBar : List String → String
  | [] => ""
  | [s] => s
  | s :: rest => s ++ "|" ++ joinBar rest

/-- Payload string hashed by `HashService.compute` (`services/hash.py`):
each field normalized, then joined with the bar delimiter. -/
def hash_service_compute (fields : List String) : String :=
  joinBar (fields.map pyNormalize)

/-- Payload string hashed by `UpdateService._compute_entity_hashdiff`
(`entity/services/update.py` lines 14-20):
`f"{display_name.strip().lower()}|{str(entity_type_id)}"`. -/
def compute_entity_hashdiff (display_name : String) (entity_type_id : Nat) : String :=
  pyNormalize display_name ++ "|" ++ toString entity_type_id

/-- Payload string hashed by `UpdateService._compute_detail_hashdiff`
(`entity/services/update.py` lines 22-26): the normalized
`detail_value` alone, with no detail-type component and no delimiter. -/
def compute_detail_hashdiff (detail_value : String) : String :=
  pyNormalize detail_value

/-- Payload string hashed by `Entity.save` (`entity/models/entity.py`,
`main` side): `f"{name.strip().lower()}|{str(entity_type_id) if
entity_type_id else str()}"`; a falsy (zero) id contributes the empty
string. -/
def entity_save_hashdiff (display_name : String) (entity_type_id : Nat) : String :=
  pyNormalize display_name ++ "|" ++ (if entity_type_id == 0 then "" else toString entity_type_id)

/-- Payload string hashed by `EntityDetail.save`
(`entity/models/detail.py` lines 84-87):
`HashService.compute([detail_value, str(detail_type.code)])`. -/
def detail_save_hashdiff (detail_value : String) (detail_type_code : String) : String :=
  hash_service_compute [detail_value, detail_type_code]

/-- Reference to a row of the static `EntityType` / `DetailType`
vocabularies: primary key and code. -/
structure TypeRef where
  id : Nat
  code : String
deriving DecidableEq

/-- One stored version row of the `entity` table
(`entity/models/entity.py`). -/
structure EntityRow where
  id : Nat
  entity_uid : Nat
  display_name : String
  entity_type : TypeRef
  hashdiff : String
  valid_from : Int
  valid_to : Option Int
  is_current : Bool
deriving DecidableEq

/-- One stored version row of the `entity_detail` table
(`entity/models/detail.py`).  `entity_row_id` is the `entity` foreign
key: it references one Entity version row (`models.ForeignKey(Entity)`),
not the logical `entity_uid`. -/
structure DetailRow where
  id : Nat
  entity_row_id : Nat
  detail_type : TypeRef
  detail_value : String
  hashdiff : String
  valid_from : Int
  valid_to : Option Int
  is_current : Bool
deriving DecidableEq

/-- One row of the append-only `audit_log` table
(`entity/models/audit.py`); `before_value` / `after_value` are the JSON
field maps. -/
structure AuditRow where
  actor : Nat
  timestamp : Int
  entity_uid : Nat
  table_name : String
  operation : String
  detail_code : Option String
  before_value : Option (List (String × String))
  after_value : Option (List (String × String))
deriving DecidableEq

/-- The transactional store: the two versioned tables, the audit table,
the autoincrement sequences and the uuid4 freshness counter. -/
structure DB where
  entities : List EntityRow
  details : List DetailRow
  audits : List AuditRow
  nextEntityId : Nat
  nextDetailId : Nat
  nextUid : Nat
deriving DecidableEq

/-- Test `x < upper` against an optional exclusive upper bound, where
`none` is an unbounded (`valid_to IS NULL`) interval end. -/
def beforeEndB (vt : Option Int) (x : Int) : Bool :=
  match vt with
  | none => true
  | some v => decide (x < v)

/-- PostgreSQL accepts `tstzrange(a, b)` only when `a <= b` (or `b` is
null); a violating bound aborts the statement. -/
def rangeWFB (vf : Int) (vt : Option Int) : Bool :=
  match vt with
  | none => true
  | some v => decide (vf ≤ v)

/-- A half-open interval `[vf, vt)` is nonempty. -/
def rangeNonemptyB (vf : Int) (vt : Option Int) : Bool :=
  beforeEndB vt vf

/-- Overlap of two half-open ranges under the `&&` operator of the
`tstzrange ... [)` exclusion constraints: nonempty ranges intersecting. -/
def overlapB (vf1 : Int) (vt1 : Option Int) (vf2 : Int) (vt2 : Option Int) : Bool :=
  rangeNonemptyB vf1 vt1 && rangeNonemptyB vf2 vt2 &&
    beforeEndB vt2 vf1 && beforeEndB vt1 vf2

/-- Pairwise constraint between a stored entity row `s` and a written
row `r` of the same table: either different logical keys, or the partial
unique index `unique_current_entity` and the exclusion constraint
`exclude_overlapping_entities` both hold for the pair. -/
def entityPairOkB (s r : EntityRow) : Bool :=
  (s.entity_uid != r.entity_uid) ||
    (!(s.is_current && r.is_current) &&
      !(overlapB s.valid_from s.valid_to r.valid_from r.valid_to))

/-- Constraint check of one entity row `r` against the other stored rows:
the range is well formed and the pairwise constraints hold against every
other row. -/
def entityRowOkAgainst (others : List EntityRow) (r : EntityRow) : Bool :=
  rangeWFB r.valid_from r.valid_to && others.all (fun s => entityPairOkB s r)

/-- Pairwise constraint between detail rows:
`unique_current_entity_detail` and `exclude_overlapping_details` are
keyed on `(entity_id, detail_type_id)` - the Entity version row foreign
key, not the logical `entity_uid`. -/
def detailPairOkB (s r : DetailRow) : Bool :=
  (s.entity_row_id != r.entity_row_id) || (s.detail_type.id != r.detail_type.id) ||
    (!(s.is_current && r.is_current) &&
      !(overlapB s.valid_from s.valid_to r.valid_from r.valid_to))

/-- Constraint check of one detail row against the other stored rows. -/
def detailRowOkAgainst (others : List DetailRow) (r : DetailRow) : Bool :=
  rangeWFB r.valid_from r.valid_to && others.all (fun s => detailPairOkB s r)

/-- Recompute the stored hash as `Entity.save` does on every save. -/
def entityWithSaveHash (r : EntityRow) : EntityRow :=
  { r with hashdiff := entity_save_hashdiff r.display_name r.entity_type.id }

/-- Recompute the stored hash as `EntityDetail.save` does on every save. -/
def detailWithSaveHash (r : DetailRow) : DetailRow :=
  { r with hashdiff := detail_save_hashdiff r.detail_value r.detail_type.code }

/-- INSERT of an entity row: recompute the save hash, then either append
the row or fail the transaction on a constraint violation. -/
def insertEntityRow (rows : List EntityRow) (r : EntityRow) : Except String (List EntityRow) :=
  if entityRowOkAgainst rows (entityWithSaveHash r) then .ok (rows ++ [entityWithSaveHash r])
  else .error "IntegrityError"

/-- UPDATE (save of an existing instance) of an entity row: recompute the
save hash, replace the row with that primary key, checking constraints
against all other rows. -/
def saveEntityRow (rows : List EntityRow) (r : EntityRow) : Except String (List EntityRow) :=
  if entityRowOkAgainst (rows.filter (fun s => s.id != r.id)) (entityWithSaveHash r) then
    .ok (rows.map (fun s => if s.id == r.id then entityWithSaveHash r else s))
  else .error "IntegrityError"

/-- INSERT of a detail row, with save-hash recomputation and constraint
check. -/
def insertDetailRow (rows : List DetailRow) (r : DetailRow) : Except String (List DetailRow) :=
  if detailRowOkAgainst rows (detailWithSaveHash r) then .ok (rows ++ [detailWithSaveHash r])
  else .error "IntegrityError"

/-- UPDATE of an existing detail row, with save-hash recomputation and
constraint check. -/
def saveDetailRow (rows : List DetailRow) (r : DetailRow) : Except String (List DetailRow) :=
  if detailRowOkAgainst (rows.filter (fun s => s.id != r.id)) (detailWithSaveHash r) then
    .ok (rows.map (fun s => if s.id == r.id then detailWithSaveHash r else s))
  else .error "IntegrityError"

/-- Lookup `Entity.objects.get(entity_uid=uid, is_current=True)`. -/
def findCurrentEntity (entities : List EntityRow) (uid : Nat) : Option EntityRow :=
  entities.find? (fun e => e.entity_uid == uid && e.is_current)

/-- Lookup `EntityDetail.objects.get(entity=<row>, detail_type=dt,
is_current=True)` - keyed on the Entity version row, as in the source. -/
def findCurrentDetail (details : List DetailRow) (entityRowId : Nat) (dtid : Nat) :
    Option DetailRow :=
  details.find? (fun d =>
    d.entity_row_id == entityRowId && d.detail_type.id == dtid && d.is_current)

/-- One detail item of an update payload (`{"detail_type": ...,
"detail_value": ...}`). -/
structure DetailPayload where
  detail_type : TypeRef
  detail_value : String
deriving DecidableEq

/-- Update payload for `UpdateService.update_entity_idempotent`: absent
keys fall back to the current row via `payload.get(...)`. -/
structure UpdatePayload where
  display_name : Option String
  entity_type : Option TypeRef
  details : List DetailPayload
deriving DecidableEq

/-- Check `UpdateService._is_entity_change_needed`
(`entity/services/update.py` lines 28-36). -/
def is_entity_change_needed (current : EntityRow) (p : UpdatePayload) : Bool :=
  let name := p.display_name.getD current.display_name
  let ty := p.entity_type.getD current.entity_type
  current.hashdiff != compute_entity_hashdiff name ty.id

/-- Check `UpdateService._is_detail_change_needed`
(`entity/services/update.py` lines 38-44). -/
def is_detail_change_needed (cur : Option DetailRow) (newValue : String) : Bool :=
  match cur with
  | none => true
  | some d => d.hashdiff != compute_detail_hashdiff newValue

/-- The details-need-update scan of `update_entity_idempotent`
(`entity/services/update.py` lines 117-129), looking each payload detail
up against the current Entity version row. -/
def details_need_update (details : List DetailRow) (currentRowId : Nat) (p : UpdatePayload) :
    Bool :=
  p.details.any fun d =>
    is_detail_change_needed (findCurrentDetail details currentRowId d.detail_type.id)
      d.detail_value

/-- Close a version row as `UpdateService._close_current_entity` does:
`valid_to := t, is_current := False`. -/
def closeEntityRow (r : EntityRow) (t : Int) : EntityRow :=
  { r with valid_to := some t, is_current := false }

/-- Close a detail version row (`entity/services/update.py` lines
82-85). -/
def closeDetailRow (r : DetailRow) (t : Int) : DetailRow :=
  { r with valid_to := some t, is_current := false }

/-- New entity version built by `UpdateService._create_new_entity`
(`entity/services/update.py` lines 53-62): payload fields merged over
the current row, open interval from `t`. -/
def newEntityVersion (newId : Nat) (current : EntityRow) (p : UpdatePayload) (t : Int) :
    EntityRow :=
  { id := newId
    entity_uid := current.entity_uid
    display_name := p.display_name.getD current.display_name
    entity_type := p.entity_type.getD current.entity_type
    hashdiff := ""
    valid_from := t
    valid_to := none
    is_current := true }

/-- New detail version created in `UpdateService._update_details`
(`entity/services/update.py` lines 87-94), attached to the new Entity
version row. -/
def newDetailVersion (newId : Nat) (newEntityRowId : Nat) (d : DetailPayload) (t : Int) :
    DetailRow :=
  { id := newId
    entity_row_id := newEntityRowId
    detail_type := d.detail_type
    detail_value := d.detail_value
    hashdiff := ""
    valid_from := t
    valid_to := none
    is_current := true }

/-- One iteration of the `_update_details` loop
(`entity/services/update.py` lines 67-94): look the current detail up
against the old current Entity row, and when a change is needed close it
and insert a new version on the new Entity row. -/
def applyDetailPayload (ds : List DetailRow) (nid : Nat) (curRowId newRowId : Nat) (t : Int)
    (d : DetailPayload) : Except String (List DetailRow × Nat) :=
  match findCurrentDetail ds curRowId d.detail_type.id with
  | none =>
    match insertDetailRow ds (newDetailVersion nid newRowId d t) with
    | .error e => .error e
    | .ok ds2 => .ok (ds2, nid + 1)
  | some c =>
    if is_detail_change_needed (some c) d.detail_value then
      match saveDetailRow ds (closeDetailRow c t) with
      | .error e => .error e
      | .ok ds1 =>
        match insertDetailRow ds1 (newDetailVersion nid newRowId d t) with
        | .error e => .error e
        | .ok ds2 => .ok (ds2, nid + 1)
    else .ok (ds, nid)

/-- The full `_update_details` loop over the payload details. -/
def applyDetailPayloads (ds : List DetailRow) (nid : Nat) (curRowId newRowId : Nat) (t : Int) :
    List DetailPayload → Except String (List DetailRow × Nat)
  | [] => .ok (ds, nid)
  | d :: rest =>
    match applyDetailPayload ds nid curRowId newRowId t d with
    | .error e => .error e
    | .ok (ds1, nid1) => applyDetailPayloads ds1 nid1 curRowId newRowId t rest

/-- Embedding of `UpdateService.update_entity_idempotent`
(`entity/services/update.py` lines 96-169): fetch the current version or
fail, compare entity and supplied-detail hashes, return
`(current, False)` with no writes when nothing changed, otherwise close
the current Entity version, insert the new one and reconcile the
supplied details, all in one transaction (an error rolls everything
back).  The audit-logger calls of the source only emit application log
lines and touch no table. -/
def update_entity_idempotent (db : DB) (uid : Nat) (p : UpdatePayload) (changeTs : Int) :
    Except String (DB × EntityRow × Bool) :=
  match findCurrentEntity db.entities uid with
  | none => .error "ValueError: entity not found"
  | some current =>
    if !(is_entity_change_needed current p) && !(details_need_update db.details current.id p) then
      .ok (db, current, false)
    else
      match saveEntityRow db.entities (closeEntityRow current changeTs) with
      | .error e => .error e
      | .ok entities1 =>
        match insertEntityRow entities1 (newEntityVersion db.nextEntityId current p changeTs) with
        | .error e => .error e
        | .ok entities2 =>
          match applyDetailPayloads db.details db.nextDetailId current.id db.nextEntityId
              changeTs p.details with
          | .error e => .error e
          | .ok (details2, nid) =>
            .ok (⟨entities2, details2, db.audits,
                  db.nextEntityId + 1, nid, db.nextUid⟩,
                 entityWithSaveHash (newEntityVersion db.nextEntityId current p changeTs), true)

/-- One detail item of a create payload; `valid_from` defaults to the
entity (`d.get("valid_from") or valid_from`). -/
structure CreateDetailPayload where
  detail_type : TypeRef
  detail_value : String
  valid_from : Option Int
deriving DecidableEq

/-- Create payload for `CreateService.create_entity`. -/
structure CreatePayload where
  display_name : String
  entity_type : TypeRef
  valid_from : Option Int
  details : List CreateDetailPayload
deriving DecidableEq

/-- First version row of a new entity created by
`CreateService.create_entity` (`entity/services/create.py` lines
17-22). -/
def firstEntityVersion (newId uidv : Nat) (p : CreatePayload) (vf : Int) : EntityRow :=
  { id := newId
    entity_uid := uidv
    display_name := p.display_name
    entity_type := p.entity_type
    hashdiff := ""
    valid_from := vf
    valid_to := none
    is_current := true }

/-- First version row of a new detail created by
`CreateService.create_entity` (`entity/services/create.py` lines
23-30). -/
def firstDetailVersion (nid : Nat) (entityRowId : Nat) (d : CreateDetailPayload) (vf : Int) :
    DetailRow :=
  { id := nid
    entity_row_id := entityRowId
    detail_type := d.detail_type
    detail_value := d.detail_value
    hashdiff := ""
    valid_from := d.valid_from.getD vf
    valid_to := none
    is_current := true }

/-- The detail-creation loop of `CreateService.create_entity`
(`entity/services/create.py` lines 23-30). -/
def createDetailRows (ds : List DetailRow) (nid : Nat) (entityRowId : Nat) (vf : Int) :
    List CreateDetailPayload → Except String (List DetailRow × Nat)
  | [] => .ok (ds, nid)
  | d :: rest =>
    match insertDetailRow ds (firstDetailVersion nid entityRowId d vf) with
    | .error e => .error e
    | .ok ds1 => createDetailRows ds1 (nid + 1) entityRowId vf rest

/-- Embedding of `CreateService.create_entity`
(`entity/services/create.py` lines 12-52): insert a first current
Entity version under a fresh `entity_uid` (uuid4, modelled by the
freshness counter) and a first current version of each supplied detail,
in one transaction; the audit logger only emits an application log line. -/
def create_entity (db : DB) (p : CreatePayload) (now : Int) : Except String (DB × Nat) :=
  match insertEntityRow db.entities
      (firstEntityVersion db.nextEntityId db.nextUid p (p.valid_from.getD now)) with
  | .error er => .error er
  | .ok entities1 =>
    match createDetailRows db.details db.nextDetailId db.nextEntityId (p.valid_from.getD now)
        p.details with
    | .error er => .error er
    | .ok (details1, nid) =>
      .ok (⟨entities1, details1, db.audits,
            db.nextEntityId + 1, nid, db.nextUid + 1⟩, db.nextUid)

/-- Embedding of `AuditService._create_audit_log` (`services/audit.py`
lines 147-180): build one `AuditLog` row from the parameters and append
it; the table is append-only. -/
def create_audit_log (db : DB) (a : AuditRow) : DB :=
  { db with audits := db.audits ++ [a] }

/-- Stable insertion of an element into a sorted list: placed before the
first element it compares `le` to, so that elements with equal keys keep
their original relative order, as the stable Python `sorted` does. -/
def sortedInsert (le : α → α → Bool) (a : α) : List α → List α
  | [] => [a]
  | b :: bs => if le a b then a :: b :: bs else b :: sortedInsert le a bs

/-- Stable insertion sort, modelling Python `sorted` / `list.sort` and
the Django `order_by` clauses (the order is total on the sort keys
used). -/
def sortBy (le : α → α → Bool) : List α → List α
  | [] => []
  | a :: as => sortedInsert le a (sortBy le as)

/-- Helper for `dedupFirst`: drop elements already seen. -/
def dedupFirstAux [DecidableEq α] (seen : List α) : List α → List α
  | [] => []
  | a :: as =>
    if seen.contains a then dedupFirstAux seen as
    else a :: dedupFirstAux (a :: seen) as

/-- Deduplicate keeping the first occurrence of each element, one
deterministic representative of Python set iteration order. -/
def dedupFirst [DecidableEq α] (l : List α) : List α :=
  dedupFirstAux [] l

/-- The join `EntityDetail.entity.entity_uid`, used by every
`entity__entity_uid` queryset filter: the logical key a detail belongs
to is read through its Entity version row foreign key. -/
def detailEntityUid (entities : List EntityRow) (d : DetailRow) : Option Nat :=
  (entities.find? (fun e => e.id == d.entity_row_id)).map (·.entity_uid)

/-- The validity predicate of the as-of queries
(`entity/services/asof.py`): `valid_from <= t` and (`valid_to` null or
`valid_to > t`), restricted to one logical key. -/
def entityAsOfPred (uid : Nat) (t : Int) (e : EntityRow) : Bool :=
  e.entity_uid == uid && decide (e.valid_from ≤ t) && beforeEndB e.valid_to t

/-- The as-of validity predicate for details of one logical key, with the
`entity__entity_uid` join. -/
def detailAsOfPred (entities : List EntityRow) (uid : Nat) (t : Int) (d : DetailRow) : Bool :=
  (detailEntityUid entities d == some uid) && decide (d.valid_from ≤ t) &&
    beforeEndB d.valid_to t

/-- The queryset `.first()` of `AsOfService.get_entity_as_of` under the
default model ordering `ordering = [-valid_from]`: the matching row
with the greatest `valid_from` (ties resolved arbitrarily by the store;
this model keeps the earlier row). -/
def pickLatest (l : List EntityRow) : Option EntityRow :=
  l.foldl (fun acc e =>
    match acc with
    | none => some e
    | some a => if decide (a.valid_from < e.valid_from) then some e else some a) none

/-- Embedding of `AsOfService.get_entity_as_of`
(`entity/services/asof.py` lines 61-112, the snapshot variant): the
entity version of `uid` valid at `t`, if any, together with the detail
versions of the logical key valid at `t`. -/
def get_entity_as_of (db : DB) (uid : Nat) (t : Int) :
    Option (EntityRow × List DetailRow) :=
  match pickLatest (db.entities.filter (entityAsOfPred uid t)) with
  | none => none
  | some e => some (e, db.details.filter (detailAsOfPred db.entities uid t))

/-- One entry of the combined history feed
(`entity/services/history.py`); `changes` is the field payload dict. -/
structure HistoryEntry where
  typ : String
  valid_from : Int
  valid_to : Option Int
  is_current : Bool
  changes : List (String × String)
  hashdiff : String
  entity_uid : Nat
deriving DecidableEq

/-- History entry built from an Entity version
(`entity/services/history.py` lines 29-41). -/
def entityHistoryEntry (e : EntityRow) : HistoryEntry :=
  { typ := "entity"
    valid_from := e.valid_from
    valid_to := e.valid_to
    is_current := e.is_current
    changes := [("display_name", e.display_name), ("entity_type", e.entity_type.code)]
    hashdiff := e.hashdiff
    entity_uid := e.entity_uid }

/-- History entry built from an EntityDetail version
(`entity/services/history.py` lines 48-60). -/
def detailHistoryEntry (uid : Nat) (d : DetailRow) : HistoryEntry :=
  { typ := "detail"
    valid_from := d.valid_from
    valid_to := d.valid_to
    is_current := d.is_current
    changes := [("detail_type", d.detail_type.code), ("detail_value", d.detail_value)]
    hashdiff := d.hashdiff
    entity_uid := uid }

/-- Newest-first comparison on history entries, as in
`history_entries.sort(key=valid_from, reverse=True)`. -/
def newestFirst (a b : HistoryEntry) : Bool :=
  decide (b.valid_from ≤ a.valid_from)

/-- Newest-first comparison on entity rows (`order_by(-valid_from)`). -/
def newestFirstEntity (a b : EntityRow) : Bool :=
  decide (b.valid_from ≤ a.valid_from)

/-- Newest-first comparison on detail rows (`order_by(-valid_from)`). -/
def newestFirstDetail (a b : DetailRow) : Bool :=
  decide (b.valid_from ≤ a.valid_from)

/-- Embedding of `HistoryService.get_combined_history`
(`entity/services/history.py` lines 11-65): every Entity version of the
logical key and every EntityDetail version reached through the
`entity__entity_uid` join, each mapped to a tagged entry, concatenated
and sorted by `valid_from` newest first (`reverse=True`). -/
def get_combined_history (db : DB) (uid : Nat) : List HistoryEntry :=
  let entityEntries :=
    (sortBy newestFirstEntity (db.entities.filter (fun e => e.entity_uid == uid))).map
      entityHistoryEntry
  let detailEntries :=
    (sortBy newestFirstDetail
        (db.details.filter (fun d => detailEntityUid db.entities d == some uid))).map
      (detailHistoryEntry uid)
  sortBy newestFirst (entityEntries ++ detailEntries)

/-- One per-entity snapshot of the `HEAD` variant of
`AsOfService.get_entities_as_of` (`entity/services/asof.py` lines
12-59). -/
structure HSnap where
  entity_uid : Nat
  display_name : String
  entity_type : String
  valid_from : Int
  valid_to : Option Int
  hashdiff : String
  details : List (String × String)
deriving DecidableEq

/-- Embedding of the `HEAD` variant of
`AsOfService.get_entities_as_of`: one snapshot per entity version row
valid at `t`, each carrying the details of its logical key valid at
`t` as (detail-type code, value) pairs. -/
def get_entities_as_of (db : DB) (t : Int) : List HSnap :=
  (db.entities.filter (fun e => decide (e.valid_from ≤ t) && beforeEndB e.valid_to t)).map
    (fun e =>
      { entity_uid := e.entity_uid
        display_name := e.display_name
        entity_type := e.entity_type.code
        valid_from := e.valid_from
        valid_to := e.valid_to
        hashdiff := e.hashdiff
        details := (db.details.filter (detailAsOfPred db.entities e.entity_uid t)).map
          (fun d => (d.detail_type.code, d.detail_value)) })

/-- Python dict built by comprehension over a list keyed on
`entity_uid`: a later item with the same key overwrites an earlier one. -/
def snapLookup (snaps : List HSnap) (uid : Nat) : Option HSnap :=
  snaps.foldl (fun acc s => if s.entity_uid == uid then some s else acc) none

/-- Python dict built by comprehension over (code, value) pairs: last
value per key wins. -/
def lastLookupStr (l : List (String × String)) (k : String) : Option String :=
  l.foldl (fun acc p => if p.1 == k then some p.2 else acc) none

/-- Value of a `from_value` / `to_value` field of a diff change record:
absent (`None`), a plain string, or the two-field entity dict emitted
for creations and deletions. -/
inductive DiffVal where
  | nil : DiffVal
  | str : String → DiffVal
  | entityFields : String → String → DiffVal
deriving DecidableEq

/-- One change record of the `HEAD` variant of
`DiffService` (`entity/services/diff.py` lines 61-164). -/
structure HChange where
  entity_uid : Nat
  change_type : String
  field : String
  from_value : DiffVal
  to_value : DiffVal
deriving DecidableEq

/-- Per-detail-type comparison of `DiffService._compare_details`
(`entity/services/diff.py` lines 119-164). -/
def compareDetailType (uid : Nat) (fromD toD : List (String × String)) (code : String) :
    List HChange :=
  match lastLookupStr fromD code, lastLookupStr toD code with
  | none, none => []
  | none, some v =>
    [{ entity_uid := uid, change_type := "detail_added", field := "detail_" ++ code,
       from_value := .nil, to_value := .str v }]
  | some v, none =>
    [{ entity_uid := uid, change_type := "detail_removed", field := "detail_" ++ code,
       from_value := .str v, to_value := .nil }]
  | some v1, some v2 =>
    if v1 ≠ v2 then
      [{ entity_uid := uid, change_type := "detail_changed", field := "detail_" ++ code,
         from_value := .str v1, to_value := .str v2 }]
    else []

/-- Detail comparison of `DiffService._compare_details`: one pass over
the union of the detail-type keys of the two snapshots (Python set
iteration modelled as first-occurrence order of the concatenation). -/
def compareDetails (uid : Nat) (fromD toD : List (String × String)) : List HChange :=
  (dedupFirst (fromD.map (·.1) ++ toD.map (·.1))).flatMap (compareDetailType uid fromD toD)

/-- Embedding of `DiffService._compare_entity_snapshots`
(`entity/services/diff.py` lines 61-117). -/
def compareEntitySnapshots (uid : Nat) : Option HSnap → Option HSnap → List HChange
  | none, none => []
  | none, some te =>
    [{ entity_uid := uid, change_type := "entity_created", field := "entity",
       from_value := .nil, to_value := .entityFields te.display_name te.entity_type }]
  | some fe, none =>
    [{ entity_uid := uid, change_type := "entity_deleted", field := "entity",
       from_value := .entityFields fe.display_name fe.entity_type, to_value := .nil }]
  | some fe, some te =>
    (if fe.display_name ≠ te.display_name then
      [{ entity_uid := uid, change_type := "field_changed", field := "display_name",
         from_value := .str fe.display_name, to_value := .str te.display_name }]
     else []) ++
    (if fe.entity_type ≠ te.entity_type then
      [{ entity_uid := uid, change_type := "field_changed", field := "entity_type",
         from_value := .str fe.entity_type, to_value := .str te.entity_type }]
     else []) ++
    compareDetails uid fe.details te.details

/-- Embedding of the `HEAD` variant of `DiffService.get_entities_diff`
(`entity/services/diff.py` lines 12-41): snapshots at the two dates,
then a per-logical-key comparison over the union of the keys (set
iteration modelled as first-occurrence order). -/
def get_entities_diff (db : DB) (fromDate toDate : Int) : List HChange :=
  (dedupFirst ((get_entities_as_of db fromDate).map (fun s => s.entity_uid) ++
      (get_entities_as_of db toDate).map (fun s => s.entity_uid))).flatMap
    (fun uid =>
      compareEntitySnapshots uid (snapLookup (get_entities_as_of db fromDate) uid)
        (snapLookup (get_entities_as_of db toDate) uid))

/-- Direction swap on a change type: creations and deletions, detail
additions and removals exchange; field and detail changes keep their
type. -/
def swapChangeType (s : String) : String :=
  if s == "entity_created" then "entity_deleted"
  else if s == "entity_deleted" then "entity_created"
  else if s == "detail_added" then "detail_removed"
  else if s == "detail_removed" then "detail_added"
  else s

/-- Direction swap on a change record: swap `from_value` / `to_value`
and exchange the paired change types. -/
def swapChange (c : HChange) : HChange :=
  { c with
    change_type := swapChangeType c.change_type
    from_value := c.to_value
    to_value := c.from_value }

/-- One per-entity snapshot of `DiffService.get_snapshot`
(`entity/services/diff.py` `main` variant, lines 188-210): core fields
plus a details dict. -/
structure MSnap where
  display_name : String
  entity_type : String
  details : List (String × String)
deriving DecidableEq

/-- Python dict assignment keyed on `entity_uid`: overwrite in place, or
append preserving insertion order. -/
def mDictInsert (l : List (Nat × MSnap)) (k : Nat) (v : MSnap) : List (Nat × MSnap) :=
  if l.any (fun p => p.1 == k) then l.map (fun p => if p.1 == k then (k, v) else p)
  else l ++ [(k, v)]

/-- Python nested dict assignment `snap[uid]["details"][code] = value`:
update the details dict of the entry with that key, if present. -/
def mDictUpdateDetail (l : List (Nat × MSnap)) (k : Nat) (code val : String) :
    List (Nat × MSnap) :=
  l.map (fun p =>
    if p.1 == k then
      (k, { p.2 with
            details :=
              if p.2.details.any (fun q => q.1 == code) then
                p.2.details.map (fun q => if q.1 == code then (code, val) else q)
              else p.2.details ++ [(code, val)] })
    else p)

/-- Python dict `.get` keyed on `entity_uid` (last write wins). -/
def mLookup (l : List (Nat × MSnap)) (k : Nat) : Option MSnap :=
  l.foldl (fun acc p => if p.1 == k then some p.2 else acc) none

/-- Embedding of `DiffService.get_snapshot` (`entity/services/diff.py`
`main` variant, lines 188-210): a dict from `entity_uid` to core fields
for every entity version valid at `t`, then the valid detail versions of
those keys merged into the per-entity details dicts. -/
def get_snapshot (db : DB) (t : Int) : List (Nat × MSnap) :=
  let snap := db.entities.foldl (fun acc e =>
    if decide (e.valid_from ≤ t) && beforeEndB e.valid_to t then
      mDictInsert acc e.entity_uid
        { display_name := e.display_name, entity_type := e.entity_type.code, details := [] }
    else acc) []
  let validDetails := db.details.filter (fun d =>
    (match detailEntityUid db.entities d with
     | some u => snap.any (fun p => p.1 == u)
     | none => false) &&
    decide (d.valid_from ≤ t) && beforeEndB d.valid_to t)
  validDetails.foldl (fun acc d =>
    match detailEntityUid db.entities d with
    | some u => mDictUpdateDetail acc u d.detail_type.code d.detail_value
    | none => acc) snap

/-- Embedding of `DiffService.validate_diff_params`
(`entity/services/diff.py` lines 177-186): format validation (identity
on model timestamps) plus the strict order requirement; `from >= to`
raises `ValueError`. -/
def validate_diff_params (fr toParam : Int) : Except String (Int × Int) :=
  if decide (fr ≥ toParam) then .error "from datetime must be earlier than to datetime"
  else .ok (fr, toParam)

/-- One change record of the `main` variant of
`DiffService.get_entities_diff`; fields absent from the Python dict are
`none`. -/
structure MChange where
  typ : String
  action : Option String
  field : Option String
  from_value : Option String
  to_value : Option String
deriving DecidableEq

/-- Grouped per-entity change list of the `main` variant. -/
structure MEntityChanges where
  entity_uid : Nat
  changes : List MChange
deriving DecidableEq

/-- Total comparison on `Nat`, for `sorted(...)` over uids. -/
def natLe (a b : Nat) : Bool :=
  decide (a ≤ b)

/-- Total comparison on `String`, for `sorted(...)` over codes. -/
def strLe (a b : String) : Bool :=
  decide (a ≤ b)

/-- Per-entity body of the `main` variant diff loop
(`entity/services/diff.py` lines 223-257): creation or deletion marker
(the missing side replaced by an empty placeholder dict, so its fields
read as `None`), core field comparisons, then detail comparisons over
the sorted union of codes. -/
def mainEntityChanges (b a : Option MSnap) : List MChange :=
  let statusChanges : List MChange :=
    match b, a with
    | none, some _ =>
      [{ typ := "entity", action := some "created", field := none,
         from_value := none, to_value := none }]
    | some _, none =>
      [{ typ := "entity", action := some "deleted", field := none,
         from_value := none, to_value := none }]
    | _, _ => []
  let bName := b.map (·.display_name)
  let aName := a.map (·.display_name)
  let bType := b.map (·.entity_type)
  let aType := a.map (·.entity_type)
  let fieldChanges : List MChange :=
    (if bName ≠ aName then
      [{ typ := "field", action := none, field := some "display_name",
         from_value := bName, to_value := aName }]
     else []) ++
    (if bType ≠ aType then
      [{ typ := "field", action := none, field := some "entity_type",
         from_value := bType, to_value := aType }]
     else [])
  let bd := (b.map (·.details)).getD []
  let ad := (a.map (·.details)).getD []
  let codes := sortBy strLe (dedupFirst (bd.map (·.1) ++ ad.map (·.1)))
  let detailChanges := codes.flatMap (fun code =>
    let oldv := lastLookupStr bd code
    let newv := lastLookupStr ad code
    if oldv ≠ newv then
      [{ typ := "detail", action := none, field := some code,
         from_value := oldv, to_value := newv }]
    else [])
  statusChanges ++ fieldChanges ++ detailChanges

/-- Embedding of the `main` variant of `DiffService.get_entities_diff`
(`entity/services/diff.py` lines 212-262): validate the parameter
order, snapshot both dates, and for each uid of the sorted key union
collect the grouped changes, keeping only entities with a nonempty
change list. -/
def get_entities_diff_validated (db : DB) (fr toParam : Int) :
    Except String (List MEntityChanges) :=
  match validate_diff_params fr toParam with
  | .error e => .error e
  | .ok (fromDt, toDt) =>
    let before := get_snapshot db fromDt
    let after := get_snapshot db toDt
    let uids := sortBy natLe (dedupFirst (before.map (·.1) ++ after.map (·.1)))
    .ok (uids.flatMap (fun uid =>
      let cs := mainEntityChanges (mLookup before uid) (mLookup after uid)
      if cs.isEmpty then [] else [{ entity_uid := uid, changes := cs }]))

deriving instance DecidableEq for Except

/-- Invariant: the `[valid_from, valid_to)` intervals of any two distinct
stored Entity versions of the same logical key (`entity_uid`) do not
overlap under half-open semantics. -/
def EntityIntervalsOk (es : List EntityRow) : Prop :=
  ∀ a ∈ es, ∀ b ∈ es, a.id ≠ b.id → a.entity_uid = b.entity_uid →
    overlapB a.valid_from a.valid_to b.valid_from b.valid_to = false

/-- Invariant: detail version intervals do not overlap per
`(entity version row, detail_type)` - the key the declared
constraints and the update lookups actually use. -/
def DetailIntervalsOkByRow (ds : List DetailRow) : Prop :=
  ∀ a ∈ ds, ∀ b ∈ ds, a.id ≠ b.id → a.entity_row_id = b.entity_row_id →
    a.detail_type.id = b.detail_type.id →
    overlapB a.valid_from a.valid_to b.valid_from b.valid_to = false

/-- Claim-level invariant: detail version intervals do not overlap per
logical key `(entity_uid, detail_type)`, the uid read through the
Entity version row join. -/
def DetailIntervalsOkLogical (db : DB) : Prop :=
  ∀ a ∈ db.details, ∀ b ∈ db.details, a.id ≠ b.id →
    detailEntityUid db.entities a = detailEntityUid db.entities b →
    a.detail_type.id = b.detail_type.id →
    overlapB a.valid_from a.valid_to b.valid_from b.valid_to = false

/-- Invariant: at most one current Entity version per logical key. -/
def EntityCurrentOk (es : List EntityRow) : Prop :=
  ∀ a ∈ es, ∀ b ∈ es, a.id ≠ b.id → a.entity_uid = b.entity_uid →
    a.is_current = true → b.is_current = true → False

/-- Invariant: at most one current detail version per
`(entity version row, detail_type)`. -/
def DetailCurrentOkByRow (ds : List DetailRow) : Prop :=
  ∀ a ∈ ds, ∀ b ∈ ds, a.id ≠ b.id → a.entity_row_id = b.entity_row_id →
    a.detail_type.id = b.detail_type.id →
    a.is_current = true → b.is_current = true → False

/-- Claim-level invariant: at most one current detail version per
logical key `(entity_uid, detail_type)`. -/
def DetailCurrentOkLogical (db : DB) : Prop :=
  ∀ a ∈ db.details, ∀ b ∈ db.details, a.id ≠ b.id →
    detailEntityUid db.entities a = detailEntityUid db.entities b →
    a.detail_type.id = b.detail_type.id →
    a.is_current = true → b.is_current = true → False

instance (es : List EntityRow) : Decidable (EntityIntervalsOk es) := by
  unfold EntityIntervalsOk; infer_instance

instance (ds : List DetailRow) : Decidable (DetailIntervalsOkByRow ds) := by
  unfold DetailIntervalsOkByRow; infer_instance

instance (db : DB) : Decidable (DetailIntervalsOkLogical db) := by
  unfold DetailIntervalsOkLogical; infer_instance

instance (es : List EntityRow) : Decidable (EntityCurrentOk es) := by
  unfold EntityCurrentOk; infer_instance

instance (ds : List DetailRow) : Decidable (DetailCurrentOkByRow ds) := by
  unfold DetailCurrentOkByRow; infer_instance

instance (db : DB) : Decidable (DetailCurrentOkLogical db) := by
  unfold DetailCurrentOkLogical; infer_instance

/-- One mutation step of the embedded write interface: a successful
`create_entity` or `update_entity_idempotent` call. -/
inductive Step : DB → DB → Prop where
  | create (p : CreatePayload) (now : Int) (db db2 : DB) (uid : Nat) :
      create_entity db p now = .ok (db2, uid) → Step db db2
  | update (uid : Nat) (p : UpdatePayload) (t : Int) (db db2 : DB) (e : EntityRow) (c : Bool) :
      update_entity_idempotent db uid p t = .ok (db2, e, c) → Step db db2

/-- Reachability by a sequence of create and update operations. -/
def Reach : DB → DB → Prop :=
  Relation.ReflTransGen Step

/-- The empty store every scenario starts from. -/
def emptyDB : DB :=
  { entities := [], details := [], audits := [],
    nextEntityId := 1, nextDetailId := 1, nextUid := 1 }

/-- A placeholder entity row used only to extract computed results. -/
def defaultEntityRow : EntityRow :=
  { id := 0, entity_uid := 0, display_name := "", entity_type := { id := 0, code := "" },
    hashdiff := "", valid_from := 0, valid_to := none, is_current := false }

/-- The PERSON entity type used by the test fixtures. -/
def personType : TypeRef :=
  { id := 1, code := "PERSON" }

/-- The email detail type used by the test fixtures. -/
def emailType : TypeRef :=
  { id := 1, code := "email" }

/-- The phone detail type used by the test fixtures. -/
def phoneType : TypeRef :=
  { id := 2, code := "phone" }

/-- Scenario: create an entity with one email detail at time 10. -/
def scenCreate : CreatePayload :=
  { display_name := "A", entity_type := personType, valid_from := none,
    details := [{ detail_type := emailType, detail_value := "v1", valid_from := none }] }

/-- Store after the creation step of the scenario. -/
def scenDb1 : DB :=
  ((create_entity emptyDB scenCreate 10).toOption.map (·.1)).getD emptyDB

/-- Scenario update at time 20 changing only the display name. -/
def scenUpd1 : UpdatePayload :=
  { display_name := some "B", entity_type := none, details := [] }

/-- Store after the entity-only update of the scenario. -/
def scenDb2 : DB :=
  ((update_entity_idempotent scenDb1 1 scenUpd1 20).toOption.map (·.1)).getD emptyDB

/-- Scenario update at time 30 re-supplying the email detail with a new
value. -/
def scenUpd2 : UpdatePayload :=
  { display_name := none, entity_type := none,
    details := [{ detail_type := emailType, detail_value := "v2" }] }

/-- Store after the detail update of the scenario: the old email detail
is still attached (current, open) to the superseded first Entity version
row while a second current email version exists on the newest row. -/
def scenDb3 : DB :=
  ((update_entity_idempotent scenDb2 1 scenUpd2 30).toOption.map (·.1)).getD emptyDB

/-- The Entity version returned by the first update of the scenario. -/
def scenRow2 : EntityRow :=
  ((update_entity_idempotent scenDb1 1 scenUpd1 20).toOption.map (fun x => x.2.1)).getD
    defaultEntityRow

/-- The Entity version returned by the second update of the scenario. -/
def scenRow3 : EntityRow :=
  ((update_entity_idempotent scenDb2 1 scenUpd2 30).toOption.map (fun x => x.2.1)).getD
    defaultEntityRow

/-- Update payload changing the display name to a third value. -/
def c2Payload : UpdatePayload :=
  { display_name := some "C", entity_type := none, details := [] }

/-- The current Entity version of the scenario store after two steps. -/
def c2wCurrent : EntityRow :=
  (findCurrentEntity scenDb2.entities 1).getD defaultEntityRow

/-- An arbitrary audit row for exercising the audit log writer. -/
def someAudit : AuditRow :=
  { actor := 7, timestamp := 40, entity_uid := 1, table_name := "entity",
    operation := "UPDATE", detail_code := none,
    before_value := some [("display_name", "A")],
    after_value := some [("display_name", "B")] }

/-- Create payload mirroring the idempotency test fixture: John
Doe with one email detail. -/
def c1Create : CreatePayload :=
  { display_name := "John Doe", entity_type := personType, valid_from := none,
    details := [{ detail_type := emailType, detail_value := "john@x.com", valid_from := none }] }

/-- Store holding the John Doe entity and its email detail, both written
through the model save hashes. -/
def c1Db : DB :=
  ((create_entity emptyDB c1Create 10).toOption.map (fun x => x.1)).getD emptyDB

/-- Update payload supplying exactly the stored values again. -/
def c1Payload : UpdatePayload :=
  { display_name := some "John Doe", entity_type := some personType,
    details := [{ detail_type := emailType, detail_value := "john@x.com" }] }

/-- The current Entity version of the one-entity store. -/
def c10Current : EntityRow :=
  (findCurrentEntity scenDb1.entities 1).getD defaultEntityRow

/-- Result triple of updating only the email detail of the one-entity
store. -/
def c10Res : DB × EntityRow × Bool :=
  (update_entity_idempotent scenDb1 1 scenUpd2 20).toOption.getD
    (emptyDB, defaultEntityRow, false)

/-- Create payload with an email and a phone detail. -/
def c7Create : CreatePayload :=
  { display_name := "A", entity_type := personType, valid_from := none,
    details := [{ detail_type := emailType, detail_value := "v1", valid_from := none },
                { detail_type := phoneType, detail_value := "p1", valid_from := none }] }

/-- Store holding one entity with an email and a phone detail. -/
def c7Db : DB :=
  ((create_entity emptyDB c7Create 10).toOption.map (fun x => x.1)).getD emptyDB

/-- Update payload mentioning only the email detail type. -/
def c7Payload : UpdatePayload :=
  { display_name := none, entity_type := none,
    details := [{ detail_type := emailType, detail_value := "v2" }] }

/-- Result triple of the email-only update of the two-detail store. -/
def c7Res : DB × EntityRow × Bool :=
  (update_entity_idempotent c7Db 1 c7Payload 20).toOption.getD
    (emptyDB, defaultEntityRow, false)

/-- The first (closed) Entity version of the two-step scenario store. -/
def c6Row : EntityRow :=
  (scenDb2.entities.find? (fun e => e.id == 1)).getD defaultEntityRow

theorem bool_and_swap4 (p q r s : Bool) :
    (p && q && r && s) = (q && p && s && r) := by
  cases p <;> cases q <;> cases r <;> cases s <;> rfl

theorem overlapB_comm (vf1 : Int) (vt1 : Option Int) (vf2 : Int) (vt2 : Option Int) :
    overlapB vf1 vt1 vf2 vt2 = overlapB vf2 vt2 vf1 vt1 := by
  unfold overlapB
  exact bool_and_swap4 _ _ _ _

theorem sortedInsert_perm (le : α → α → Bool) (a : α) (l : List α) :
    (sortedInsert le a l).Perm (a :: l) := by
  induction l with
  | nil => simp [sortedInsert]
  | cons b bs ih =>
    unfold sortedInsert
    split
    · exact List.Perm.refl _
    · exact (ih.cons b).trans (List.Perm.swap a b bs)

theorem sortBy_perm (le : α → α → Bool) (l : List α) : (sortBy le l).Perm l := by
  induction l with
  | nil => exact List.Perm.refl _
  | cons a as ih =>
    unfold sortBy
    exact (sortedInsert_perm le a _).trans (ih.cons a)

theorem sortBy_length (le : α → α → Bool) (l : List α) :
    (sortBy le l).length = l.length :=
  (sortBy_perm le l).length_eq

theorem sortedInsert_pairwise (le : α → α → Bool)
    (htrans : ∀ a b c, le a b = true → le b c = true → le a c = true)
    (htot : ∀ a b, (le a b || le b a) = true) (a : α) (l : List α)
    (h : l.Pairwise fun x y => le x y = true) :
    (sortedInsert le a l).Pairwise fun x y => le x y = true := by
  induction l with
  | nil => simp [sortedInsert]
  | cons b bs ih =>
    rcases List.pairwise_cons.mp h with ⟨hb, hbs⟩
    unfold sortedInsert
    split
    next hab =>
      refine List.pairwise_cons.mpr ⟨?_, h⟩
      intro x hx
      rcases List.mem_cons.mp hx with rfl | hx2
      · exact hab
      · exact htrans a b x hab (hb x hx2)
    next hab =>
      have hba : le b a = true := by
        have h2 := htot a b
        cases hle : le a b
        · simpa [hle] using h2
        · exact absurd hle hab
      refine List.pairwise_cons.mpr ⟨?_, ih hbs⟩
      intro x hx
      have hx2 : x = a ∨ x ∈ bs := by
        have := (sortedInsert_perm le a bs).mem_iff.mp hx
        simpa using this
      rcases hx2 with rfl | hx3
      · exact hba
      · exact hb x hx3

theorem sortBy_pairwise (le : α → α → Bool)
    (htrans : ∀ a b c, le a b = true → le b c = true → le a c = true)
    (htot : ∀ a b, (le a b || le b a) = true) (l : List α) :
    (sortBy le l).Pairwise fun x y => le x y = true := by
  induction l with
  | nil => simp [sortBy]
  | cons a as ih =>
    unfold sortBy
    exact sortedInsert_pairwise le htrans htot a _ ih

theorem mem_dedupFirstAux [DecidableEq α] (l : List α) :
    ∀ (seen : List α) (a : α), a ∈ dedupFirstAux seen l ↔ a ∈ l ∧ a ∉ seen := by
  induction l with
  | nil =>
    intro seen a
    simp [dedupFirstAux]
  | cons b bs ih =>
    intro seen a
    unfold dedupFirstAux
    split
    next hcon =>
      have hbseen : b ∈ seen := by simpa using hcon
      rw [ih]
      constructor
      · rintro ⟨h1, h2⟩
        exact ⟨List.mem_cons_of_mem b h1, h2⟩
      · rintro ⟨h1, h2⟩
        rcases List.mem_cons.mp h1 with rfl | h3
        · exact absurd hbseen h2
        · exact ⟨h3, h2⟩
    next hcon =>
      have hbseen : b ∉ seen := by simpa using hcon
      by_cases hab : a = b
      · subst hab
        simp [hbseen]
      · constructor
        · intro hmem
          rcases List.mem_cons.mp hmem with rfl | h3
          · exact absurd rfl hab
          · have h4 := (ih (b :: seen) a).mp h3
            refine ⟨List.mem_cons_of_mem b h4.1, ?_⟩
            intro h5
            exact h4.2 (List.mem_cons_of_mem b h5)
        · rintro ⟨h1, h2⟩
          rcases List.mem_cons.mp h1 with rfl | h3
          · exact absurd rfl hab
          · refine List.mem_cons_of_mem b ((ih (b :: seen) a).mpr ⟨h3, ?_⟩)
            intro h4
            rcases List.mem_cons.mp h4 with rfl | h5
            · exact hab rfl
            · exact h2 h5

theorem nodup_dedupFirstAux [DecidableEq α] (l : List α) :
    ∀ seen : List α, (dedupFirstAux seen l).Nodup := by
  induction l with
  | nil =>
    intro seen
    simp [dedupFirstAux]
  | cons b bs ih =>
    intro seen
    unfold dedupFirstAux
    split
    · exact ih seen
    · refine List.nodup_cons.mpr ⟨?_, ih (b :: seen)⟩
      intro hmem
      exact ((mem_dedupFirstAux bs (b :: seen) b).mp hmem).2 (List.mem_cons_self b seen)

theorem mem_dedupFirst [DecidableEq α] (l : List α) (a : α) :
    a ∈ dedupFirst l ↔ a ∈ l := by
  unfold dedupFirst
  rw [mem_dedupFirstAux]
  simp

theorem nodup_dedupFirst [DecidableEq α] (l : List α) : (dedupFirst l).Nodup :=
  nodup_dedupFirstAux l []

theorem dedupFirst_perm [DecidableEq α] {l1 l2 : List α} (h : ∀ a, a ∈ l1 ↔ a ∈ l2) :
    (dedupFirst l1).Perm (dedupFirst l2) :=
  (List.perm_ext_iff_of_nodup (nodup_dedupFirst l1) (nodup_dedupFirst l2)).mpr
    (by intro a; rw [mem_dedupFirst, mem_dedupFirst]; exact h a)

theorem eq_of_same_key_nodup {α β : Type _} (f : α → β) :
    ∀ (l : List α) (a b : α), (l.map f).Nodup → a ∈ l → b ∈ l → f a = f b → a = b := by
  intro l
  induction l with
  | nil =>
    intro a b _ ha
    cases ha
  | cons c cs ih =>
    intro a b hnd ha hb hf
    have hc : f c ∉ cs.map f := (List.nodup_cons.mp (by simpa using hnd)).1
    have hnd2 : (cs.map f).Nodup := (List.nodup_cons.mp (by simpa using hnd)).2
    rcases List.mem_cons.mp ha with rfl | ha2 <;> rcases List.mem_cons.mp hb with rfl | hb2
    · rfl
    · exact absurd (hf ▸ List.mem_map_of_mem f hb2) hc
    · exact absurd (hf ▸ List.mem_map_of_mem f ha2) (by simpa [hf] using hc)
    · exact ih a b hnd2 ha2 hb2 hf

theorem insertEntityRow_ok_elim {rows : List EntityRow} {r : EntityRow}
    {rows2 : List EntityRow} (h : insertEntityRow rows r = .ok rows2) :
    rows2 = rows ++ [entityWithSaveHash r] ∧
      entityRowOkAgainst rows (entityWithSaveHash r) = true := by
  unfold insertEntityRow at h
  split at h
  · exact ⟨(Except.ok.injEq _ _).mp h.symm, by assumption⟩
  · cases h

theorem saveEntityRow_ok_elim {rows : List EntityRow} {r : EntityRow}
    {rows2 : List EntityRow} (h : saveEntityRow rows r = .ok rows2) :
    rows2 = rows.map (fun s => if s.id == r.id then entityWithSaveHash r else s) ∧
      entityRowOkAgainst (rows.filter (fun s => s.id != r.id)) (entityWithSaveHash r) = true := by
  unfold saveEntityRow at h
  split at h
  · exact ⟨(Except.ok.injEq _ _).mp h.symm, by assumption⟩
  · cases h

theorem insertDetailRow_ok_elim {rows : List DetailRow} {r : DetailRow}
    {rows2 : List DetailRow} (h : insertDetailRow rows r = .ok rows2) :
    rows2 = rows ++ [detailWithSaveHash r] ∧
      detailRowOkAgainst rows (detailWithSaveHash r) = true := by
  unfold insertDetailRow at h
  split at h
  · exact ⟨(Except.ok.injEq _ _).mp h.symm, by assumption⟩
  · cases h

theorem saveDetailRow_ok_elim {rows : List DetailRow} {r : DetailRow}
    {rows2 : List DetailRow} (h : saveDetailRow rows r = .ok rows2) :
    rows2 = rows.map (fun s => if s.id == r.id then detailWithSaveHash r else s) ∧
      detailRowOkAgainst (rows.filter (fun s => s.id != r.id)) (detailWithSaveHash r) = true := by
  unfold saveDetailRow at h
  split at h
  · exact ⟨(Except.ok.injEq _ _).mp h.symm, by assumption⟩
  · cases h

theorem update_ok_elim {db : DB} {uid : Nat} {p : UpdatePayload} {t : Int}
    {db2 : DB} {e : EntityRow} {c : Bool}
    (h : update_entity_idempotent db uid p t = .ok (db2, e, c)) :
    ∃ current, findCurrentEntity db.entities uid = some current ∧
      ((is_entity_change_needed current p = false ∧
        details_need_update db.details current.id p = false ∧
        db2 = db ∧ e = current ∧ c = false) ∨
       (c = true ∧ e = entityWithSaveHash (newEntityVersion db.nextEntityId current p t) ∧
        ∃ es1 es2 ds2 nid,
          saveEntityRow db.entities (closeEntityRow current t) = .ok es1 ∧
          insertEntityRow es1 (newEntityVersion db.nextEntityId current p t) = .ok es2 ∧
          applyDetailPayloads db.details db.nextDetailId current.id db.nextEntityId t
            p.details = .ok (ds2, nid) ∧
          db2 = ⟨es2, ds2, db.audits, db.nextEntityId + 1, nid, db.nextUid⟩)) := by
  unfold update_entity_idempotent at h
  cases hf : findCurrentEntity db.entities uid with
  | none =>
    simp only [hf] at h
    exact Except.noConfusion h
  | some current =>
    simp only [hf] at h
    refine ⟨current, rfl, ?_⟩
    by_cases hno :
        (!(is_entity_change_needed current p) && !(details_need_update db.details current.id p))
          = true
    · rw [if_pos hno] at h
      simp only [Except.ok.injEq, Prod.mk.injEq] at h
      rw [Bool.and_eq_true, Bool.not_eq_true', Bool.not_eq_true'] at hno
      exact Or.inl ⟨hno.1, hno.2, h.1.symm, h.2.1.symm, h.2.2.symm⟩
    · rw [if_neg hno] at h
      cases hs : saveEntityRow db.entities (closeEntityRow current t) with
      | error e2 =>
        simp only [hs] at h
        exact Except.noConfusion h
      | ok es1 =>
        simp only [hs] at h
        cases hi : insertEntityRow es1 (newEntityVersion db.nextEntityId current p t) with
        | error e2 =>
          simp only [hi] at h
          exact Except.noConfusion h
        | ok es2 =>
          simp only [hi] at h
          cases hd : applyDetailPayloads db.details db.nextDetailId current.id db.nextEntityId t
              p.details with
          | error e2 =>
            simp only [hd] at h
            exact Except.noConfusion h
          | ok pr =>
            obtain ⟨ds2, nid⟩ := pr
            simp only [hd] at h
            simp only [Except.ok.injEq, Prod.mk.injEq] at h
            exact Or.inr ⟨h.2.2.symm, h.2.1.symm, es1, es2, ds2, nid, rfl, hi, rfl, h.1.symm⟩

theorem create_ok_elim {db : DB} {p : CreatePayload} {now : Int} {db2 : DB} {uid : Nat}
    (h : create_entity db p now = .ok (db2, uid)) :
    ∃ es1 ds1 nid,
      insertEntityRow db.entities
        (firstEntityVersion db.nextEntityId db.nextUid p (p.valid_from.getD now)) = .ok es1 ∧
      createDetailRows db.details db.nextDetailId db.nextEntityId (p.valid_from.getD now)
        p.details = .ok (ds1, nid) ∧
      uid = db.nextUid ∧
      db2 = ⟨es1, ds1, db.audits, db.nextEntityId + 1, nid, db.nextUid + 1⟩ := by
  unfold create_entity at h
  cases hi : insertEntityRow db.entities
      (firstEntityVersion db.nextEntityId db.nextUid p (p.valid_from.getD now)) with
  | error e2 =>
    simp only [hi] at h
    exact Except.noConfusion h
  | ok es1 =>
    simp only [hi] at h
    cases hc : createDetailRows db.details db.nextDetailId db.nextEntityId
        (p.valid_from.getD now) p.details with
    | error e2 =>
      simp only [hc] at h
      exact Except.noConfusion h
    | ok pr =>
      obtain ⟨ds1, nid⟩ := pr
      simp only [hc] at h
      simp only [Except.ok.injEq, Prod.mk.injEq] at h
      exact ⟨es1, ds1, nid, rfl, rfl, h.2.symm, h.1.symm⟩

theorem entityWithSaveHash_id (r : EntityRow) : (entityWithSaveHash r).id = r.id := rfl

theorem detailWithSaveHash_id (r : DetailRow) : (detailWithSaveHash r).id = r.id := rfl

theorem memInv_insertEntity {R : EntityRow → EntityRow → Prop}
    (hR : ∀ s r, entityPairOkB s r = true → R s r ∧ R r s)
    {rows : List EntityRow} {r : EntityRow} {rows2 : List EntityRow}
    (h : insertEntityRow rows r = .ok rows2)
    (hinv : ∀ a ∈ rows, ∀ b ∈ rows, a.id ≠ b.id → R a b) :
    ∀ a ∈ rows2, ∀ b ∈ rows2, a.id ≠ b.id → R a b := by
  obtain ⟨hrows2, hchk⟩ := insertEntityRow_ok_elim h
  subst hrows2
  have hall : ∀ s ∈ rows, entityPairOkB s (entityWithSaveHash r) = true := by
    unfold entityRowOkAgainst at hchk
    rw [Bool.and_eq_true, List.all_eq_true] at hchk
    exact fun s hs => hchk.2 s hs
  intro a ha b hb hid
  rcases List.mem_append.mp ha with ha1 | ha2 <;> rcases List.mem_append.mp hb with hb1 | hb2
  · exact hinv a ha1 b hb1 hid
  · have hbr : b = entityWithSaveHash r := by simpa using hb2
    subst hbr
    exact (hR a _ (hall a ha1)).1
  · have har : a = entityWithSaveHash r := by simpa using ha2
    subst har
    exact (hR b _ (hall b hb1)).2
  · have har : a = entityWithSaveHash r := by simpa using ha2
    have hbr : b = entityWithSaveHash r := by simpa using hb2
    subst har
    subst hbr
    exact absurd rfl hid

theorem memInv_saveEntity {R : EntityRow → EntityRow → Prop}
    (hR : ∀ s r, entityPairOkB s r = true → R s r ∧ R r s)
    {rows : List EntityRow} {r : EntityRow} {rows2 : List EntityRow}
    (h : saveEntityRow rows r = .ok rows2)
    (hinv : ∀ a ∈ rows, ∀ b ∈ rows, a.id ≠ b.id → R a b) :
    ∀ a ∈ rows2, ∀ b ∈ rows2, a.id ≠ b.id → R a b := by
  obtain ⟨hrows2, hchk⟩ := saveEntityRow_ok_elim h
  subst hrows2
  have hall : ∀ s ∈ rows, s.id ≠ r.id → entityPairOkB s (entityWithSaveHash r) = true := by
    unfold entityRowOkAgainst at hchk
    rw [Bool.and_eq_true, List.all_eq_true] at hchk
    intro s hs hsid
    exact hchk.2 s (List.mem_filter.mpr ⟨hs, by simpa using hsid⟩)
  intro a ha b hb hid
  rcases List.mem_map.mp ha with ⟨a0, ha0, haeq⟩
  rcases List.mem_map.mp hb with ⟨b0, hb0, hbeq⟩
  by_cases hca : (a0.id == r.id) = true <;> by_cases hcb : (b0.id == r.id) = true
  · rw [if_pos hca] at haeq
    rw [if_pos hcb] at hbeq
    exact absurd (congrArg EntityRow.id (haeq.symm.trans hbeq)) hid
  · rw [if_pos hca] at haeq
    rw [if_neg hcb] at hbeq
    rw [← haeq, ← hbeq]
    exact (hR b0 _ (hall b0 hb0 (by simpa using hcb))).2
  · rw [if_neg hca] at haeq
    rw [if_pos hcb] at hbeq
    rw [← haeq, ← hbeq]
    exact (hR a0 _ (hall a0 ha0 (by simpa using hca))).1
  · rw [if_neg hca] at haeq
    rw [if_neg hcb] at hbeq
    rw [← haeq, ← hbeq] at hid ⊢
    exact hinv a0 ha0 b0 hb0 hid

theorem memInv_insertDetail {R : DetailRow → DetailRow → Prop}
    (hR : ∀ s r, detailPairOkB s r = true → R s r ∧ R r s)
    {rows : List DetailRow} {r : DetailRow} {rows2 : List DetailRow}
    (h : insertDetailRow rows r = .ok rows2)
    (hinv : ∀ a ∈ rows, ∀ b ∈ rows, a.id ≠ b.id → R a b) :
    ∀ a ∈ rows2, ∀ b ∈ rows2, a.id ≠ b.id → R a b := by
  obtain ⟨hrows2, hchk⟩ := insertDetailRow_ok_elim h
  subst hrows2
  have hall : ∀ s ∈ rows, detailPairOkB s (detailWithSaveHash r) = true := by
    unfold detailRowOkAgainst at hchk
    rw [Bool.and_eq_true, List.all_eq_true] at hchk
    exact fun s hs => hchk.2 s hs
  intro a ha b hb hid
  rcases List.mem_append.mp ha with ha1 | ha2 <;> rcases List.mem_append.mp hb with hb1 | hb2
  · exact hinv a ha1 b hb1 hid
  · have hbr : b = detailWithSaveHash r := by simpa using hb2
    subst hbr
    exact (hR a _ (hall a ha1)).1
  · have har : a = detailWithSaveHash r := by simpa using ha2
    subst har
    exact (hR b _ (hall b hb1)).2
  · have har : a = detailWithSaveHash r := by simpa using ha2
    have hbr : b = detailWithSaveHash r := by simpa using hb2
    subst har
    subst hbr
    exact absurd rfl hid

theorem memInv_saveDetail {R : DetailRow → DetailRow → Prop}
    (hR : ∀ s r, detailPairOkB s r = true → R s r ∧ R r s)
    {rows : List DetailRow} {r : DetailRow} {rows2 : List DetailRow}
    (h : saveDetailRow rows r = .ok rows2)
    (hinv : ∀ a ∈ rows, ∀ b ∈ rows, a.id ≠ b.id → R a b) :
    ∀ a ∈ rows2, ∀ b ∈ rows2, a.id ≠ b.id → R a b := by
  obtain ⟨hrows2, hchk⟩ := saveDetailRow_ok_elim h
  subst hrows2
  have hall : ∀ s ∈ rows, s.id ≠ r.id → detailPairOkB s (detailWithSaveHash r) = true := by
    unfold detailRowOkAgainst at hchk
    rw [Bool.and_eq_true, List.all_eq_true] at hchk
    intro s hs hsid
    exact hchk.2 s (List.mem_filter.mpr ⟨hs, by simpa using hsid⟩)
  intro a ha b hb hid
  rcases List.mem_map.mp ha with ⟨a0, ha0, haeq⟩
  rcases List.mem_map.mp hb with ⟨b0, hb0, hbeq⟩
  by_cases hca : (a0.id == r.id) = true <;> by_cases hcb : (b0.id == r.id) = true
  · rw [if_pos hca] at haeq
    rw [if_pos hcb] at hbeq
    exact absurd (congrArg DetailRow.id (haeq.symm.trans hbeq)) hid
  · rw [if_pos hca] at haeq
    rw [if_neg hcb] at hbeq
    rw [← haeq, ← hbeq]
    exact (hR b0 _ (hall b0 hb0 (by simpa using hcb))).2
  · rw [if_neg hca] at haeq
    rw [if_pos hcb] at hbeq
    rw [← haeq, ← hbeq]
    exact (hR a0 _ (hall a0 ha0 (by simpa using hca))).1
  · rw [if_neg hca] at haeq
    rw [if_neg hcb] at hbeq
    rw [← haeq, ← hbeq] at hid ⊢
    exact hinv a0 ha0 b0 hb0 hid

theorem memInv_applyDetailPayload {R : DetailRow → DetailRow → Prop}
    (hR : ∀ s r, detailPairOkB s r = true → R s r ∧ R r s)
    {ds : List DetailRow} {nid curRowId newRowId : Nat} {t : Int} {d : DetailPayload}
    {ds2 : List DetailRow} {nid2 : Nat}
    (h : applyDetailPayload ds nid curRowId newRowId t d = .ok (ds2, nid2))
    (hinv : ∀ a ∈ ds, ∀ b ∈ ds, a.id ≠ b.id → R a b) :
    ∀ a ∈ ds2, ∀ b ∈ ds2, a.id ≠ b.id → R a b := by
  unfold applyDetailPayload at h
  cases hcur : findCurrentDetail ds curRowId d.detail_type.id with
  | none =>
    simp only [hcur] at h
    cases hi : insertDetailRow ds (newDetailVersion nid newRowId d t) with
    | error e =>
      simp only [hi] at h
      exact Except.noConfusion h
    | ok dsI =>
      simp only [hi] at h
      simp only [Except.ok.injEq, Prod.mk.injEq] at h
      rw [← h.1]
      exact memInv_insertDetail hR hi hinv
  | some c =>
    simp only [hcur] at h
    by_cases hch : is_detail_change_needed (some c) d.detail_value = true
    · rw [if_pos hch] at h
      cases hs : saveDetailRow ds (closeDetailRow c t) with
      | error e =>
        simp only [hs] at h
        exact Except.noConfusion h
      | ok ds1 =>
        simp only [hs] at h
        cases hi : insertDetailRow ds1 (newDetailVersion nid newRowId d t) with
        | error e =>
          simp only [hi] at h
          exact Except.noConfusion h
        | ok dsI =>
          simp only [hi] at h
          simp only [Except.ok.injEq, Prod.mk.injEq] at h
          rw [← h.1]
          exact memInv_insertDetail hR hi (memInv_saveDetail hR hs hinv)
    · rw [if_neg hch] at h
      simp only [Except.ok.injEq, Prod.mk.injEq] at h
      rw [← h.1]
      exact hinv

theorem memInv_applyDetailPayloads {R : DetailRow → DetailRow → Prop}
    (hR : ∀ s r, detailPairOkB s r = true → R s r ∧ R r s) :
    ∀ (pls : List DetailPayload) {ds : List DetailRow} {nid curRowId newRowId : Nat} {t : Int}
      {ds2 : List DetailRow} {nid2 : Nat},
      applyDetailPayloads ds nid curRowId newRowId t pls = .ok (ds2, nid2) →
      (∀ a ∈ ds, ∀ b ∈ ds, a.id ≠ b.id → R a b) →
      ∀ a ∈ ds2, ∀ b ∈ ds2, a.id ≠ b.id → R a b := by
  intro pls
  induction pls with
  | nil =>
    intro ds nid curRowId newRowId t ds2 nid2 h hinv
    unfold applyDetailPayloads at h
    simp only [Except.ok.injEq, Prod.mk.injEq] at h
    rw [← h.1]
    exact hinv
  | cons d rest ih =>
    intro ds nid curRowId newRowId t ds2 nid2 h hinv
    unfold applyDetailPayloads at h
    cases hstep : applyDetailPayload ds nid curRowId newRowId t d with
    | error e =>
      simp only [hstep] at h
      exact Except.noConfusion h
    | ok pr =>
      obtain ⟨ds1, nid1⟩ := pr
      simp only [hstep] at h
      exact ih h (memInv_applyDetailPayload hR hstep hinv)

theorem memInv_createDetailRows {R : DetailRow → DetailRow → Prop}
    (hR : ∀ s r, detailPairOkB s r = true → R s r ∧ R r s) :
    ∀ (pls : List CreateDetailPayload) {ds : List DetailRow} {nid entityRowId : Nat} {vf : Int}
      {ds2 : List DetailRow} {nid2 : Nat},
      createDetailRows ds nid entityRowId vf pls = .ok (ds2, nid2) →
      (∀ a ∈ ds, ∀ b ∈ ds, a.id ≠ b.id → R a b) →
      ∀ a ∈ ds2, ∀ b ∈ ds2, a.id ≠ b.id → R a b := by
  intro pls
  induction pls with
  | nil =>
    intro ds nid entityRowId vf ds2 nid2 h hinv
    unfold createDetailRows at h
    simp only [Except.ok.injEq, Prod.mk.injEq] at h
    rw [← h.1]
    exact hinv
  | cons d rest ih =>
    intro ds nid entityRowId vf ds2 nid2 h hinv
    unfold createDetailRows at h
    cases hi : insertDetailRow ds (firstDetailVersion nid entityRowId d vf) with
    | error e =>
      simp only [hi] at h
      exact Except.noConfusion h
    | ok ds1 =>
      simp only [hi] at h
      exact ih h (memInv_insertDetail hR hi hinv)

theorem step_memInv_entities {R : EntityRow → EntityRow → Prop}
    (hR : ∀ s r, entityPairOkB s r = true → R s r ∧ R r s)
    {db db2 : DB} (h : Step db db2)
    (hinv : ∀ a ∈ db.entities, ∀ b ∈ db.entities, a.id ≠ b.id → R a b) :
    ∀ a ∈ db2.entities, ∀ b ∈ db2.entities, a.id ≠ b.id → R a b := by
  cases h with
  | create p now db db2 uid hc =>
    obtain ⟨es1, ds1, nid, hi, hcd, huid, hdb⟩ := create_ok_elim hc
    subst hdb
    exact memInv_insertEntity hR hi hinv
  | update uid p t db db2 e c hu =>
    obtain ⟨current, hf, hcase⟩ := update_ok_elim hu
    rcases hcase with ⟨h1, h2, hdb, h4, h5⟩ | ⟨h1, h2, es1, es2, ds2, nid, hs, hi, hd, hdb⟩
    · subst hdb
      exact hinv
    · subst hdb
      exact memInv_insertEntity hR hi (memInv_saveEntity hR hs hinv)

theorem step_memInv_details {R : DetailRow → DetailRow → Prop}
    (hR : ∀ s r, detailPairOkB s r = true → R s r ∧ R r s)
    {db db2 : DB} (h : Step db db2)
    (hinv : ∀ a ∈ db.details, ∀ b ∈ db.details, a.id ≠ b.id → R a b) :
    ∀ a ∈ db2.details, ∀ b ∈ db2.details, a.id ≠ b.id → R a b := by
  cases h with
  | create p now db db2 uid hc =>
    obtain ⟨es1, ds1, nid, hi, hcd, huid, hdb⟩ := create_ok_elim hc
    subst hdb
    exact memInv_createDetailRows hR p.details hcd hinv
  | update uid p t db db2 e c hu =>
    obtain ⟨current, hf, hcase⟩ := update_ok_elim hu
    rcases hcase with ⟨h1, h2, hdb, h4, h5⟩ | ⟨h1, h2, es1, es2, ds2, nid, hs, hi, hd, hdb⟩
    · subst hdb
      exact hinv
    · subst hdb
      exact memInv_applyDetailPayloads hR p.details hd hinv

theorem reach_memInv_entities {R : EntityRow → EntityRow → Prop}
    (hR : ∀ s r, entityPairOkB s r = true → R s r ∧ R r s)
    {db db2 : DB} (h : Reach db db2)
    (hinv : ∀ a ∈ db.entities, ∀ b ∈ db.entities, a.id ≠ b.id → R a b) :
    ∀ a ∈ db2.entities, ∀ b ∈ db2.entities, a.id ≠ b.id → R a b := by
  induction h with
  | refl => exact hinv
  | tail hseg hstep ih => exact step_memInv_entities hR hstep ih

theorem reach_memInv_details {R : DetailRow → DetailRow → Prop}
    (hR : ∀ s r, detailPairOkB s r = true → R s r ∧ R r s)
    {db db2 : DB} (h : Reach db db2)
    (hinv : ∀ a ∈ db.details, ∀ b ∈ db.details, a.id ≠ b.id → R a b) :
    ∀ a ∈ db2.details, ∀ b ∈ db2.details, a.id ≠ b.id → R a b := by
  induction h with
  | refl => exact hinv
  | tail hseg hstep ih => exact step_memInv_details hR hstep ih

theorem entityPairOk_overlap {s r : EntityRow} (h : entityPairOkB s r = true)
    (hu : s.entity_uid = r.entity_uid) :
    overlapB s.valid_from s.valid_to r.valid_from r.valid_to = false := by
  unfold entityPairOkB at h
  rw [Bool.or_eq_true] at h
  rcases h with h | h
  · exact absurd hu (by simpa using h)
  · rw [Bool.and_eq_true] at h
    simpa using h.2

theorem entityPairOk_current {s r : EntityRow} (h : entityPairOkB s r = true)
    (hu : s.entity_uid = r.entity_uid) (hs : s.is_current = true) (hr : r.is_current = true) :
    False := by
  unfold entityPairOkB at h
  rw [Bool.or_eq_true] at h
  rcases h with h | h
  · exact absurd hu (by simpa using h)
  · rw [Bool.and_eq_true] at h
    have h1 := h.1
    rw [hs, hr] at h1
    simp at h1

theorem detailPairOk_overlap {s r : DetailRow} (h : detailPairOkB s r = true)
    (he : s.entity_row_id = r.entity_row_id) (ht : s.detail_type.id = r.detail_type.id) :
    overlapB s.valid_from s.valid_to r.valid_from r.valid_to = false := by
  unfold detailPairOkB at h
  rw [Bool.or_eq_true] at h
  rcases h with h | h
  · rw [Bool.or_eq_true] at h
    rcases h with h | h
    · exact absurd he (by simpa using h)
    · exact absurd ht (by simpa using h)
  · rw [Bool.and_eq_true] at h
    simpa using h.2

theorem detailPairOk_current {s r : DetailRow} (h : detailPairOkB s r = true)
    (he : s.entity_row_id = r.entity_row_id) (ht : s.detail_type.id = r.detail_type.id)
    (hs : s.is_current = true) (hr : r.is_current = true) : False := by
  unfold detailPairOkB at h
  rw [Bool.or_eq_true] at h
  rcases h with h | h
  · rw [Bool.or_eq_true] at h
    rcases h with h | h
    · exact absurd he (by simpa using h)
    · exact absurd ht (by simpa using h)
  · rw [Bool.and_eq_true] at h
    have h1 := h.1
    rw [hs, hr] at h1
    simp at h1

/-- C3 (amended): along any sequence of create and update operations,
the interval invariants the store actually enforces are preserved:
Entity intervals are pairwise non-overlapping per logical key
`entity_uid`, and EntityDetail intervals are pairwise non-overlapping
per `(entity version row, detail_type)` - the foreign-key pair the
declared constraints and the update lookups use.  (The claimed
`(entity_uid, detail_type)` keying for details fails; see the
counterexample.) -/
theorem scd2_intervals_nonoverlap_preserved (db db2 : DB)
    (h1 : EntityIntervalsOk db.entities) (h2 : DetailIntervalsOkByRow db.details)
    (hr : Reach db db2) :
    EntityIntervalsOk db2.entities ∧ DetailIntervalsOkByRow db2.details := by
  unfold EntityIntervalsOk at h1 ⊢
  unfold DetailIntervalsOkByRow at h2 ⊢
  constructor
  · refine reach_memInv_entities ?_ hr h1
    intro s r h
    exact ⟨fun hu => entityPairOk_overlap h hu,
           fun hu => by rw [overlapB_comm]; exact entityPairOk_overlap h hu.symm⟩
  · refine reach_memInv_details ?_ hr h2
    intro s r h
    exact ⟨fun he ht => detailPairOk_overlap h he ht,
           fun he ht => by rw [overlapB_comm]; exact detailPairOk_overlap h he.symm ht.symm⟩

/-- C3 counterexample: a concrete reachable run - create an entity with
an email detail at 10, update only the display name at 20, re-supply the
email with a new value at 30 - ends in a store whose two email detail
versions of the same logical key `(entity_uid, detail_type)` have
overlapping (both open) validity intervals, because the second update
never closes the detail attached to the superseded Entity version row. -/
theorem scd2_logical_detail_overlap_reachable :
    Reach emptyDB scenDb3 ∧ ¬ DetailIntervalsOkLogical scenDb3 := by
  constructor
  · exact Relation.ReflTransGen.trans
      (Relation.ReflTransGen.single
        (Step.create scenCreate 10 emptyDB scenDb1 1 (by decide)))
      (Relation.ReflTransGen.trans
        (Relation.ReflTransGen.single
          (Step.update 1 scenUpd1 20 scenDb1 scenDb2 scenRow2 true (by decide)))
        (Relation.ReflTransGen.single
          (Step.update 1 scenUpd2 30 scenDb2 scenDb3 scenRow3 true (by decide))))
  · decide

/-- C3 witness: the preservation theorem applied to the concrete
one-step run from the empty store. -/
theorem scd2_intervals_nonoverlap_witness :
    EntityIntervalsOk scenDb1.entities ∧ DetailIntervalsOkByRow scenDb1.details :=
  scd2_intervals_nonoverlap_preserved emptyDB scenDb1 (by decide) (by decide)
    (Relation.ReflTransGen.single (Step.create scenCreate 10 emptyDB scenDb1 1 (by decide)))

/-- C4 (amended): along any sequence of create and update operations the
store keeps at most one `is_current` Entity version per logical key
`entity_uid`, and at most one current EntityDetail version per
`(entity version row, detail_type)`; each update flips the closed row to
`is_current = false` in the same transaction that inserts the new
current row.  (The claimed `(entity_uid, detail_type)` keying for
details fails; see the counterexample.) -/
theorem scd2_single_current_preserved (db db2 : DB)
    (h1 : EntityCurrentOk db.entities) (h2 : DetailCurrentOkByRow db.details)
    (hr : Reach db db2) :
    EntityCurrentOk db2.entities ∧ DetailCurrentOkByRow db2.details := by
  unfold EntityCurrentOk at h1 ⊢
  unfold DetailCurrentOkByRow at h2 ⊢
  constructor
  · refine reach_memInv_entities ?_ hr h1
    intro s r h
    exact ⟨fun hu hs2 hr2 => entityPairOk_current h hu hs2 hr2,
           fun hu hs2 hr2 => entityPairOk_current h hu.symm hr2 hs2⟩
  · refine reach_memInv_details ?_ hr h2
    intro s r h
    exact ⟨fun he ht hs2 hr2 => detailPairOk_current h he ht hs2 hr2,
           fun he ht hs2 hr2 => detailPairOk_current h he.symm ht.symm hr2 hs2⟩

/-- C4 counterexample: the same reachable run ends with two rows that
are both `is_current = true` with `valid_to = null` for the one logical
key `(entity_uid, detail_type)`: the email detail attached to the
superseded first Entity version row is never closed, and the second
update inserts a second current email version on the newest row. -/
theorem scd2_two_current_details_reachable :
    Reach emptyDB scenDb3 ∧ ¬ DetailCurrentOkLogical scenDb3 := by
  constructor
  · exact Relation.ReflTransGen.trans
      (Relation.ReflTransGen.single
        (Step.create scenCreate 10 emptyDB scenDb1 1 (by decide)))
      (Relation.ReflTransGen.trans
        (Relation.ReflTransGen.single
          (Step.update 1 scenUpd1 20 scenDb1 scenDb2 scenRow2 true (by decide)))
        (Relation.ReflTransGen.single
          (Step.update 1 scenUpd2 30 scenDb2 scenDb3 scenRow3 true (by decide))))
  · decide

/-- C4 witness: the single-current preservation theorem applied to the
concrete one-step run from the empty store. -/
theorem scd2_single_current_witness :
    EntityCurrentOk scenDb1.entities ∧ DetailCurrentOkByRow scenDb1.details :=
  scd2_single_current_preserved emptyDB scenDb1 (by decide) (by decide)
    (Relation.ReflTransGen.single (Step.create scenCreate 10 emptyDB scenDb1 1 (by decide)))

theorem closeEntityRow_id (r : EntityRow) (t : Int) : (closeEntityRow r t).id = r.id := rfl

theorem entity_save_hashdiff_eq_compute (name : String) (tid : Nat) (h : tid ≠ 0) :
    entity_save_hashdiff name tid = compute_entity_hashdiff name tid := by
  unfold entity_save_hashdiff compute_entity_hashdiff
  rw [if_neg (by simpa using h)]

/-- C2 (amended): there is no application-level OutOfOrderTransition
check; what holds instead is that a changed update at a timestamp
strictly earlier than the `valid_from` of the current version fails
with the storage layer IntegrityError - closing the current row would build a
reversed `[valid_from, t)` range - and the transaction writes nothing.
At a timestamp exactly equal to `valid_from` the update succeeds (see
the counterexample). -/
theorem update_before_current_start_fails (db : DB) (uid : Nat) (p : UpdatePayload) (t : Int)
    (current : EntityRow) (hf : findCurrentEntity db.entities uid = some current)
    (hch : (is_entity_change_needed current p ||
      details_need_update db.details current.id p) = true)
    (ht : t < current.valid_from) :
    update_entity_idempotent db uid p t = .error "IntegrityError" := by
  unfold update_entity_idempotent
  simp only [hf]
  have hcond : (!(is_entity_change_needed current p) &&
      !(details_need_update db.details current.id p)) = false := by
    rw [Bool.or_eq_true] at hch
    rcases hch with h | h <;> simp [h]
  rw [if_neg (by simp [hcond])]
  have hsave : saveEntityRow db.entities (closeEntityRow current t) = .error "IntegrityError" := by
    unfold saveEntityRow
    rw [if_neg ?hneg]
    case hneg =>
      intro hcontra
      unfold entityRowOkAgainst at hcontra
      rw [Bool.and_eq_true] at hcontra
      have h2 : rangeWFB current.valid_from (some t) = true := hcontra.1
      unfold rangeWFB at h2
      rw [decide_eq_true_iff] at h2
      omega
  rw [hsave]

/-- C2 counterexample: a changed update at a timestamp exactly equal to
the `valid_from` of the current version neither raises an OutOfOrderTransition
nor any other error: it succeeds and reports `changed = true`, closing
the current version with an empty interval. -/
theorem update_at_equal_timestamp_succeeds :
    (update_entity_idempotent scenDb2 1 c2Payload 20).isOk = true ∧
    ((update_entity_idempotent scenDb2 1 c2Payload 20).toOption.map
      (fun x => x.2.2)) = some true :=
  ⟨by decide, by decide⟩

/-- C2 witness: the strictly-earlier-timestamp theorem applied at a
concrete store and timestamp. -/
theorem update_before_current_start_witness :
    findCurrentEntity scenDb2.entities 1 = some c2wCurrent ∧
    (is_entity_change_needed c2wCurrent c2Payload ||
      details_need_update scenDb2.details c2wCurrent.id c2Payload) = true ∧
    (15 : Int) < c2wCurrent.valid_from ∧
    update_entity_idempotent scenDb2 1 c2Payload 15 = .error "IntegrityError" :=
  ⟨by decide, by decide, by decide,
   update_before_current_start_fails scenDb2 1 c2Payload 15 c2wCurrent
     (by decide) (by decide) (by decide)⟩

/-- C10 (confirmed): when the payload leaves the entity content hash
unchanged but some supplied detail needs a change, a successful update
still reports `changed = true`, closes the current Entity version
(`is_current = false`, `valid_to = t`) and inserts a new current Entity
version with the same content hash, growing the Entity version count by
one. -/
theorem update_detail_change_forces_entity_version (db : DB) (uid : Nat) (p : UpdatePayload)
    (t : Int) (db2 : DB) (e : EntityRow) (c : Bool) (current : EntityRow)
    (hf : findCurrentEntity db.entities uid = some current)
    (hent : is_entity_change_needed current p = false)
    (hdet : details_need_update db.details current.id p = true)
    (hid : current.id < db.nextEntityId)
    (htid : (p.entity_type.getD current.entity_type).id ≠ 0)
    (hok : update_entity_idempotent db uid p t = .ok (db2, e, c)) :
    c = true ∧ e.is_current = true ∧ e.hashdiff = current.hashdiff ∧
    db2.entities.length = db.entities.length + 1 ∧ e ∈ db2.entities ∧
    (∀ r ∈ db2.entities, r.id = current.id → r.is_current = false ∧ r.valid_to = some t) := by
  obtain ⟨cur2, hf2, hcase⟩ := update_ok_elim hok
  rw [hf] at hf2
  injection hf2 with hc2
  subst hc2
  rcases hcase with ⟨hA, hB, _, _, _⟩ | ⟨hc, he, es1, es2, ds2, nid, hs, hi, hd, hdb⟩
  · rw [hdet] at hB
    exact absurd hB (by simp)
  · obtain ⟨hes1, _⟩ := saveEntityRow_ok_elim hs
    obtain ⟨hes2, _⟩ := insertEntityRow_ok_elim hi
    subst hdb
    subst hes2
    subst hes1
    subst he
    refine ⟨hc, rfl, ?_, by simp, ?_, ?_⟩
    · show entity_save_hashdiff (p.display_name.getD current.display_name)
        (p.entity_type.getD current.entity_type).id = current.hashdiff
      rw [entity_save_hashdiff_eq_compute _ _ htid]
      unfold is_entity_change_needed at hent
      rw [bne_eq_false_iff_eq] at hent
      exact hent.symm
    · exact List.mem_append_right _ (List.mem_singleton.mpr rfl)
    · intro r hr hrid
      rcases List.mem_append.mp hr with h1 | h2
      · rcases List.mem_map.mp h1 with ⟨a0, ha0, haeq⟩
        simp only [closeEntityRow_id] at haeq
        by_cases hca : (a0.id == current.id) = true
        · rw [if_pos hca] at haeq
          rw [← haeq]
          exact ⟨rfl, rfl⟩
        · rw [if_neg hca] at haeq
          rw [← haeq] at hrid
          exact absurd hrid (by simpa using hca)
      · have hre : r = entityWithSaveHash (newEntityVersion db.nextEntityId current p t) := by
          simpa using h2
        rw [hre] at hrid
        have : db.nextEntityId = current.id := hrid
        omega

/-- C10 witness: the theorem applied to the concrete one-detail store
with an email-only change. -/
theorem update_detail_change_forces_entity_version_witness :
    findCurrentEntity scenDb1.entities 1 = some c10Current ∧
    is_entity_change_needed c10Current scenUpd2 = false ∧
    details_need_update scenDb1.details c10Current.id scenUpd2 = true ∧
    c10Current.id < scenDb1.nextEntityId ∧
    (scenUpd2.entity_type.getD c10Current.entity_type).id ≠ 0 ∧
    (c10Res.2.2 = true ∧ c10Res.2.1.is_current = true ∧
      c10Res.2.1.hashdiff = c10Current.hashdiff ∧
      c10Res.1.entities.length = scenDb1.entities.length + 1 ∧ c10Res.2.1 ∈ c10Res.1.entities ∧
      (∀ r ∈ c10Res.1.entities, r.id = c10Current.id →
        r.is_current = false ∧ r.valid_to = some 20)) :=
  ⟨by decide, by decide, by decide, by decide, by decide,
   update_detail_change_forces_entity_version scenDb1 1 scenUpd2 20 c10Res.1 c10Res.2.1
     c10Res.2.2 c10Current (by decide) (by decide) (by decide) (by decide) (by decide)
     (by decide)⟩

/-- C5 (amended): the version-writing operations of the repository
create no AuditLog rows at all - a successful
`update_entity_idempotent` (changed or no-op) and a successful
`create_entity` leave the audit table exactly as it was, emitting only
application-log lines - while `AuditService._create_audit_log`, invoked
only from the vestigial `EntityService` path, appends exactly one row
per call. -/
theorem audit_rows_unchanged_by_transitions
    (db : DB) (uid : Nat) (p : UpdatePayload) (t : Int) (db2 : DB) (e : EntityRow) (c : Bool)
    (db3 : DB) (cp : CreatePayload) (now : Int) (db4 : DB) (u2 : Nat) (a : AuditRow)
    (hu : update_entity_idempotent db uid p t = .ok (db2, e, c))
    (hcr : create_entity db3 cp now = .ok (db4, u2)) :
    db2.audits = db.audits ∧ db4.audits = db3.audits ∧
    (create_audit_log db a).audits = db.audits ++ [a] := by
  refine ⟨?_, ?_, rfl⟩
  · obtain ⟨cur, hfc, hcase⟩ := update_ok_elim hu
    rcases hcase with ⟨h1, h2, hdb, h4, h5⟩ | ⟨h1, h2, es1, es2, ds2, nid, hs, hi, hd, hdb⟩ <;>
      subst hdb <;> rfl
  · obtain ⟨es1, ds1, nid, hi, hcd, hun, hdb⟩ := create_ok_elim hcr
    subst hdb
    rfl

/-- C5 counterexample: a successful changed update - which closes one
Entity row (an UPDATE) and inserts another (an INSERT) - produces zero
AuditLog rows, not exactly one per row written. -/
theorem update_writes_no_audit_rows :
    ((update_entity_idempotent scenDb1 1 scenUpd1 20).toOption.map
      (fun x => (x.1.audits.length, x.1.entities.length))) = some (0, 2) := by
  decide

/-- C5 witness: the audit-preservation theorem applied to concrete
update, create and audit-writer calls. -/
theorem audit_rows_unchanged_witness :
    update_entity_idempotent scenDb1 1 scenUpd1 20 = .ok (scenDb2, scenRow2, true) ∧
    create_entity emptyDB scenCreate 10 = .ok (scenDb1, 1) ∧
    (scenDb2.audits = scenDb1.audits ∧ scenDb1.audits = emptyDB.audits ∧
      (create_audit_log scenDb1 someAudit).audits = scenDb1.audits ++ [someAudit]) :=
  ⟨by decide, by decide,
   audit_rows_unchanged_by_transitions scenDb1 1 scenUpd1 20 scenDb2 scenRow2 true
     emptyDB scenCreate 10 scenDb1 1 someAudit (by decide) (by decide)⟩

/-- C1 (code bug): the supplied detail value is byte-identical to the
stored one - its storage-side hash (`EntityDetail.save`, value plus
detail-type code) equals the stored `hashdiff`, as the first conjunct
checks - and the entity fields are identical too, yet
`update_entity_idempotent` reports `changed = true` and writes a new
Entity version and a new EntityDetail version (two rows each), because
`_compute_detail_hashdiff` hashes only the normalized value while the
stored hash also covers the detail-type code, so the idempotency
comparison never matches.  The test suite of the repository, in
`test_identical_detail_update_is_noop` asserts `changed = false` and
single versions. -/
theorem identical_detail_update_not_noop :
    c1Db.details.all
      (fun d => detail_save_hashdiff "john@x.com" d.detail_type.code == d.hashdiff) = true ∧
    ((update_entity_idempotent c1Db 1 c1Payload 20).toOption.map
      (fun x => (x.2.2, x.1.entities.length, x.1.details.length))) = some (true, 2, 2) :=
  ⟨by decide, by decide⟩

theorem filter_map_invariant {α : Type _} {p : α → Bool} {f : α → α} :
    ∀ l : List α, (∀ s ∈ l, (p (f s) = false ∧ p s = false) ∨ f s = s) →
      (l.map f).filter p = l.filter p := by
  intro l
  induction l with
  | nil => intro _; rfl
  | cons a as ih =>
    intro h
    have ha := h a (List.mem_cons_self a as)
    have hrest := ih fun s hs => h s (List.mem_cons_of_mem a hs)
    simp only [List.map_cons, List.filter_cons]
    rcases ha with ⟨h1, h2⟩ | h3
    · rw [h1, h2]
      exact hrest
    · rw [h3]
      cases hpa : p a
      · exact hrest
      · rw [hrest]

theorem findCurrentDetail_mem {ds : List DetailRow} {curRowId tid : Nat} {c : DetailRow}
    (h : findCurrentDetail ds curRowId tid = some c) :
    c ∈ ds ∧ c.detail_type.id = tid := by
  unfold findCurrentDetail at h
  have hm := List.mem_of_find?_eq_some h
  have hp := List.find?_some h
  rw [Bool.and_eq_true, Bool.and_eq_true] at hp
  exact ⟨hm, by simpa using hp.1.2⟩

theorem insertDetail_frame (dt : Nat) {ds : List DetailRow} {nid newRowId : Nat} {t : Int}
    {d : DetailPayload} {dsI : List DetailRow}
    (hi : insertDetailRow ds (newDetailVersion nid newRowId d t) = .ok dsI)
    (hnd : (ds.map (fun r => r.id)).Nodup) (hfr : ∀ r ∈ ds, r.id < nid)
    (hdt : d.detail_type.id ≠ dt) :
    dsI.filter (fun r => r.detail_type.id == dt) = ds.filter (fun r => r.detail_type.id == dt) ∧
    (dsI.map (fun r => r.id)).Nodup ∧ (∀ r ∈ dsI, r.id < nid + 1) := by
  obtain ⟨hins, _⟩ := insertDetailRow_ok_elim hi
  subst hins
  refine ⟨?_, ?_, ?_⟩
  · rw [List.filter_append]
    have hone : ([detailWithSaveHash (newDetailVersion nid newRowId d t)].filter
        (fun r => r.detail_type.id == dt)) = [] := by
      simp [detailWithSaveHash, newDetailVersion, hdt]
    rw [hone, List.append_nil]
  · rw [List.map_append]
    rw [List.nodup_append]
    refine ⟨hnd, by simp, ?_⟩
    intro x hx
    rcases List.mem_map.mp hx with ⟨r, hr, hrx⟩
    have : x < nid := hrx ▸ hfr r hr
    simp only [detailWithSaveHash, newDetailVersion, List.map_cons, List.map_nil]
    intro hmem
    have hx2 : x = nid := by simpa using hmem
    omega
  · intro r hr
    rcases List.mem_append.mp hr with h1 | h2
    · have := hfr r h1
      omega
    · have : r = detailWithSaveHash (newDetailVersion nid newRowId d t) := by simpa using h2
      rw [this]
      show nid < nid + 1
      omega

theorem saveDetail_frame (dt : Nat) {ds : List DetailRow} {c : DetailRow} {t : Int}
    {ds1 : List DetailRow}
    (hs : saveDetailRow ds (closeDetailRow c t) = .ok ds1)
    (hnd : (ds.map (fun r => r.id)).Nodup)
    (hc : c ∈ ds) (hct : c.detail_type.id ≠ dt) :
    ds1.filter (fun r => r.detail_type.id == dt) = ds.filter (fun r => r.detail_type.id == dt) ∧
    ds1.map (fun r => r.id) = ds.map (fun r => r.id) := by
  obtain ⟨hmap, _⟩ := saveDetailRow_ok_elim hs
  subst hmap
  constructor
  · refine filter_map_invariant ds ?_
    intro s hsm
    by_cases hsc : (s.id == (closeDetailRow c t).id) = true
    · left
      have hseq : s = c := by
        refine eq_of_same_key_nodup (fun r => r.id) ds s c hnd hsm hc ?_
        simpa using hsc
      rw [if_pos hsc]
      constructor
      · simpa [detailWithSaveHash, closeDetailRow] using hct
      · rw [hseq]
        simpa using hct
    · right
      rw [if_neg hsc]
  · rw [List.map_map]
    refine List.map_congr_left ?_
    intro s hsm
    by_cases hsc : (s.id == (closeDetailRow c t).id) = true
    · simp only [Function.comp_apply]
      rw [if_pos hsc]
      show c.id = s.id
      have h2 : s.id = (closeDetailRow c t).id := by simpa using hsc
      simpa using h2.symm
    · simp only [Function.comp_apply]
      rw [if_neg hsc]

theorem applyDetailPayload_frame (dt : Nat) {ds : List DetailRow} {nid curRowId newRowId : Nat}
    {t : Int} {d : DetailPayload} {ds2 : List DetailRow} {nid2 : Nat}
    (h : applyDetailPayload ds nid curRowId newRowId t d = .ok (ds2, nid2))
    (hnd : (ds.map (fun r => r.id)).Nodup) (hfr : ∀ r ∈ ds, r.id < nid)
    (hdt : d.detail_type.id ≠ dt) :
    ds2.filter (fun r => r.detail_type.id == dt) = ds.filter (fun r => r.detail_type.id == dt) ∧
    (ds2.map (fun r => r.id)).Nodup ∧ (∀ r ∈ ds2, r.id < nid2) ∧ nid ≤ nid2 := by
  unfold applyDetailPayload at h
  cases hcur : findCurrentDetail ds curRowId d.detail_type.id with
  | none =>
    simp only [hcur] at h
    cases hi : insertDetailRow ds (newDetailVersion nid newRowId d t) with
    | error e =>
      simp only [hi] at h
      exact Except.noConfusion h
    | ok dsI =>
      simp only [hi] at h
      simp only [Except.ok.injEq, Prod.mk.injEq] at h
      obtain ⟨hfil, hnd2, hfr2⟩ := insertDetail_frame dt hi hnd hfr hdt
      rw [← h.1, ← h.2]
      exact ⟨hfil, hnd2, hfr2, by omega⟩
  | some c =>
    simp only [hcur] at h
    obtain ⟨hcm, hctyp⟩ := findCurrentDetail_mem hcur
    have hct : c.detail_type.id ≠ dt := by rw [hctyp]; exact hdt
    by_cases hch : is_detail_change_needed (some c) d.detail_value = true
    · rw [if_pos hch] at h
      cases hsv : saveDetailRow ds (closeDetailRow c t) with
      | error e =>
        simp only [hsv] at h
        exact Except.noConfusion h
      | ok ds1 =>
        simp only [hsv] at h
        cases hi : insertDetailRow ds1 (newDetailVersion nid newRowId d t) with
        | error e =>
          simp only [hi] at h
          exact Except.noConfusion h
        | ok dsI =>
          simp only [hi] at h
          simp only [Except.ok.injEq, Prod.mk.injEq] at h
          obtain ⟨hfil1, hids1⟩ := saveDetail_frame dt hsv hnd hcm hct
          have hnd1 : (ds1.map (fun r => r.id)).Nodup := by rw [hids1]; exact hnd
          have hfr1 : ∀ r ∈ ds1, r.id < nid := by
            intro r hr
            have : r.id ∈ ds1.map (fun r => r.id) := List.mem_map_of_mem _ hr
            rw [hids1] at this
            rcases List.mem_map.mp this with ⟨r0, hr0, hre⟩
            rw [← hre]
            exact hfr r0 hr0
          obtain ⟨hfil2, hnd2, hfr2⟩ := insertDetail_frame dt hi hnd1 hfr1 hdt
          rw [← h.1, ← h.2]
          exact ⟨hfil2.trans hfil1, hnd2, hfr2, by omega⟩
    · rw [if_neg hch] at h
      simp only [Except.ok.injEq, Prod.mk.injEq] at h
      rw [← h.1, ← h.2]
      exact ⟨rfl, hnd, hfr, by omega⟩

theorem applyDetailPayloads_frame (dt : Nat) :
    ∀ (pls : List DetailPayload) {ds : List DetailRow} {nid curRowId newRowId : Nat} {t : Int}
      {ds2 : List DetailRow} {nid2 : Nat},
      applyDetailPayloads ds nid curRowId newRowId t pls = .ok (ds2, nid2) →
      (ds.map (fun r => r.id)).Nodup → (∀ r ∈ ds, r.id < nid) →
      (∀ d ∈ pls, d.detail_type.id ≠ dt) →
      ds2.filter (fun r => r.detail_type.id == dt) =
        ds.filter (fun r => r.detail_type.id == dt) := by
  intro pls
  induction pls with
  | nil =>
    intro ds nid curRowId newRowId t ds2 nid2 h hnd hfr hdts
    unfold applyDetailPayloads at h
    simp only [Except.ok.injEq, Prod.mk.injEq] at h
    rw [← h.1]
  | cons d rest ih =>
    intro ds nid curRowId newRowId t ds2 nid2 h hnd hfr hdts
    unfold applyDetailPayloads at h
    cases hstep : applyDetailPayload ds nid curRowId newRowId t d with
    | error e =>
      simp only [hstep] at h
      exact Except.noConfusion h
    | ok pr =>
      obtain ⟨ds1, nid1⟩ := pr
      simp only [hstep] at h
      obtain ⟨hfil, hnd1, hfr1, _⟩ :=
        applyDetailPayload_frame dt hstep hnd hfr (hdts d (List.mem_cons_self d rest))
      have hrest := ih h hnd1 hfr1 (fun d2 hd2 => hdts d2 (List.mem_cons_of_mem d hd2))
      exact hrest.trans hfil

/-- C7 (confirmed): a successful `update_entity_idempotent` whose
payload never mentions detail type `dt` leaves the stored rows of that
type completely untouched: the list of `dt` rows (hence per row the
`valid_from`, `valid_to`, `is_current` and `hashdiff`) is identical
before and after, and no new version of that type is created or
closed. -/
theorem update_unmentioned_details_untouched (db : DB) (uid : Nat) (p : UpdatePayload) (t : Int)
    (db2 : DB) (e : EntityRow) (c : Bool) (dt : Nat)
    (hnd : (db.details.map (fun r => r.id)).Nodup)
    (hfr : ∀ r ∈ db.details, r.id < db.nextDetailId)
    (hok : update_entity_idempotent db uid p t = .ok (db2, e, c))
    (hdt : ∀ d ∈ p.details, d.detail_type.id ≠ dt) :
    db2.details.filter (fun r => r.detail_type.id == dt) =
      db.details.filter (fun r => r.detail_type.id == dt) := by
  obtain ⟨cur, hfc, hcase⟩ := update_ok_elim hok
  rcases hcase with ⟨h1, h2, hdb, h4, h5⟩ | ⟨h1, h2, es1, es2, ds2, nid, hs, hi, hd, hdb⟩
  · subst hdb
    rfl
  · subst hdb
    exact applyDetailPayloads_frame dt p.details hd hnd hfr hdt

/-- C7 witness: the frame theorem applied to a store with an email and
a phone detail, updated with an email-only payload; the phone rows are
unchanged. -/
theorem update_unmentioned_details_untouched_witness :
    (c7Db.details.map (fun r => r.id)).Nodup ∧
    (∀ r ∈ c7Db.details, r.id < c7Db.nextDetailId) ∧
    update_entity_idempotent c7Db 1 c7Payload 20 = .ok (c7Res.1, c7Res.2.1, c7Res.2.2) ∧
    (∀ d ∈ c7Payload.details, d.detail_type.id ≠ 2) ∧
    c7Res.1.details.filter (fun r => r.detail_type.id == 2) =
      c7Db.details.filter (fun r => r.detail_type.id == 2) :=
  ⟨by decide, by decide, by decide, by decide,
   update_unmentioned_details_untouched c7Db 1 c7Payload 20 c7Res.1 c7Res.2.1 c7Res.2.2 2
     (by decide) (by decide) (by decide) (by decide)⟩

theorem overlap_of_both_contain {vf1 : Int} {vt1 : Option Int} {vf2 : Int} {vt2 : Option Int}
    {t : Int} (h1f : vf1 ≤ t) (h1t : beforeEndB vt1 t = true)
    (h2f : vf2 ≤ t) (h2t : beforeEndB vt2 t = true) :
    overlapB vf1 vt1 vf2 vt2 = true := by
  unfold overlapB rangeNonemptyB
  unfold beforeEndB at *
  cases vt1 <;> cases vt2 <;> simp_all <;> omega

theorem filter_eq_singleton_of_unique {α β : Type _} (f : α → β) {p : α → Bool} :
    ∀ (l : List α) (r : α), r ∈ l → p r = true → (∀ s ∈ l, p s = true → s = r) →
      (l.map f).Nodup → l.filter p = [r] := by
  intro l
  induction l with
  | nil =>
    intro r hr
    cases hr
  | cons a as ih =>
    intro r hr hp hall hnd
    have hnd2 : (as.map f).Nodup := (List.nodup_cons.mp (by simpa using hnd)).2
    have hfa : f a ∉ as.map f := (List.nodup_cons.mp (by simpa using hnd)).1
    by_cases hpa : p a = true
    · have hae : a = r := hall a (List.mem_cons_self a as) hpa
      subst hae
      rw [List.filter_cons_of_pos hpa]
      have hnil : as.filter p = [] := by
        rw [List.filter_eq_nil_iff]
        intro s hs hps
        have hsa : s = a := hall s (List.mem_cons_of_mem a hs) hps
        exact hfa (hsa ▸ List.mem_map_of_mem f hs)
      rw [hnil]
    · rw [List.filter_cons_of_neg (by simpa using hpa)]
      have hras : r ∈ as := by
        rcases List.mem_cons.mp hr with rfl | h2
        · exact absurd hp hpa
        · exact h2
      exact ih r hras hp (fun s hs hps => hall s (List.mem_cons_of_mem a hs) hps) hnd2

/-- C6 (confirmed): `get_entity_as_of` returns exactly the unique stored
version of the logical key whose half-open interval contains `t`
(`valid_from <= t` and `valid_to` null or `> t`) - uniqueness granted by
the non-overlap invariant - returns not-found when no version of the
key covers `t`, and the details of the returned snapshot are exactly the
detail versions of the key whose intervals contain `t`. -/
theorem as_of_returns_unique_covering_version (db : DB) (uid : Nat) (t : Int)
    (hnd : (db.entities.map (fun e => e.id)).Nodup)
    (hinv : EntityIntervalsOk db.entities) :
    (∀ r ∈ db.entities, r.entity_uid = uid → r.valid_from ≤ t → beforeEndB r.valid_to t = true →
      (get_entity_as_of db uid t).map (fun x => x.1) = some r) ∧
    ((∀ r ∈ db.entities, r.entity_uid = uid →
        ¬(r.valid_from ≤ t ∧ beforeEndB r.valid_to t = true)) →
      get_entity_as_of db uid t = none) ∧
    (∀ er ds, get_entity_as_of db uid t = some (er, ds) →
      ∀ d, d ∈ ds ↔ d ∈ db.details ∧ detailAsOfPred db.entities uid t d = true) := by
  refine ⟨?_, ?_, ?_⟩
  · intro r hr hu hvf hvt
    have hPr : entityAsOfPred uid t r = true := by
      unfold entityAsOfPred
      simp [hu, hvf, hvt]
    have hfil : db.entities.filter (entityAsOfPred uid t) = [r] := by
      refine filter_eq_singleton_of_unique (fun e => e.id) db.entities r hr hPr ?_ hnd
      intro s hs hPs
      unfold entityAsOfPred at hPs
      rw [Bool.and_eq_true, Bool.and_eq_true] at hPs
      obtain ⟨⟨hsu, hsf⟩, hst⟩ := hPs
      have hsu2 : s.entity_uid = uid := by simpa using hsu
      have hsf2 : s.valid_from ≤ t := by simpa using hsf
      by_cases hsid : s.id = r.id
      · exact eq_of_same_key_nodup (fun e => e.id) db.entities s r hnd hs hr hsid
      · exfalso
        have hov := hinv s hs r hr hsid (by rw [hsu2, hu])
        rw [overlap_of_both_contain hsf2 hst hvf hvt] at hov
        exact Bool.noConfusion hov
    unfold get_entity_as_of
    rw [hfil]
    rfl
  · intro hnone
    have hfil : db.entities.filter (entityAsOfPred uid t) = [] := by
      rw [List.filter_eq_nil_iff]
      intro s hs hPs
      unfold entityAsOfPred at hPs
      rw [Bool.and_eq_true, Bool.and_eq_true] at hPs
      obtain ⟨⟨hsu, hsf⟩, hst⟩ := hPs
      exact hnone s hs (by simpa using hsu) ⟨by simpa using hsf, hst⟩
    unfold get_entity_as_of
    rw [hfil]
    rfl
  · intro er ds h
    unfold get_entity_as_of at h
    cases hp : pickLatest (db.entities.filter (entityAsOfPred uid t)) with
    | none =>
      simp only [hp] at h
      exact Option.noConfusion h
    | some e0 =>
      simp only [hp] at h
      simp only [Option.some.injEq, Prod.mk.injEq] at h
      intro d
      rw [← h.2]
      simp [List.mem_filter]

/-- C6 witness: the as-of theorem applied to the two-version scenario
store at a time inside the interval of the first (closed) version. -/
theorem as_of_unique_version_witness :
    (scenDb2.entities.map (fun e => e.id)).Nodup ∧ EntityIntervalsOk scenDb2.entities ∧
    c6Row ∈ scenDb2.entities ∧ c6Row.entity_uid = 1 ∧ c6Row.valid_from ≤ 15 ∧
    beforeEndB c6Row.valid_to 15 = true ∧
    (get_entity_as_of scenDb2 1 15).map (fun x => x.1) = some c6Row :=
  ⟨by decide, by decide, by decide, by decide, by decide, by decide,
   (as_of_returns_unique_covering_version scenDb2 1 15 (by decide) (by decide)).1 c6Row
     (by decide) (by decide) (by decide) (by decide)⟩

/-- C8 (amended): `get_combined_history` contains every stored Entity
version and every stored EntityDetail version of the logical key exactly
once - its length is the Entity version count plus the EntityDetail
version count - and it is sorted by `valid_from` DESCENDING (newest
first, `reverse=True` in the source), not ascending as the claim
states. -/
theorem combined_history_complete_sorted_desc (db : DB) (uid : Nat) :
    (get_combined_history db uid).length =
      (db.entities.filter (fun e => e.entity_uid == uid)).length +
      (db.details.filter (fun d => detailEntityUid db.entities d == some uid)).length ∧
    (get_combined_history db uid).Pairwise (fun a b => b.valid_from ≤ a.valid_from) := by
  constructor
  · unfold get_combined_history
    rw [sortBy_length, List.length_append, List.length_map, List.length_map, sortBy_length,
      sortBy_length]
  · have htrans : ∀ a b c : HistoryEntry, newestFirst a b = true → newestFirst b c = true →
        newestFirst a c = true := by
      intro a b c h1 h2
      unfold newestFirst at h1 h2 ⊢
      rw [decide_eq_true_iff] at h1 h2 ⊢
      omega
    have htot : ∀ a b : HistoryEntry, (newestFirst a b || newestFirst b a) = true := by
      intro a b
      unfold newestFirst
      rcases Int.le_total b.valid_from a.valid_from with h | h <;> simp [h]
    unfold get_combined_history
    exact (sortBy_pairwise newestFirst htrans htot _).imp
      (fun hab => by simpa [newestFirst] using hab)

/-- C8 counterexample: for a key with versions starting at 10 and 20 the
combined history lists `valid_from` values `[20, 10, 10]` - newest
first - which is not ascending, refuting the claimed sort order. -/
theorem combined_history_not_ascending :
    ((get_combined_history scenDb2 1).map (fun h => h.valid_from)) = [20, 10, 10] ∧
    ¬ ((get_combined_history scenDb2 1).map (fun h => h.valid_from)).Sorted (· ≤ ·) :=
  ⟨by decide, by decide⟩

theorem compareDetailType_swap (uid : Nat) (fD tD : List (String × String)) (code : String) :
    (compareDetailType uid fD tD code).map swapChange = compareDetailType uid tD fD code := by
  unfold compareDetailType
  cases h1 : lastLookupStr fD code <;> cases h2 : lastLookupStr tD code
  · rfl
  · rfl
  · rfl
  · rename_i v1 v2
    dsimp only
    by_cases hv : v1 = v2
    · subst hv
      rw [if_neg (by simp)]
      rfl
    · rw [if_pos hv, if_pos (Ne.symm hv)]
      rfl

theorem compareDetails_swap_perm (uid : Nat) (fD tD : List (String × String)) :
    ((compareDetails uid fD tD).map swapChange).Perm (compareDetails uid tD fD) := by
  unfold compareDetails
  rw [List.map_flatMap]
  have hcongr := List.flatMap_congr
    (l := dedupFirst (fD.map (fun q => q.1) ++ tD.map (fun q => q.1)))
    (fun c _ => compareDetailType_swap uid fD tD c)
  rw [hcongr]
  exact List.Perm.flatMap_right _ (dedupFirst_perm (by
    intro x
    simp only [List.mem_append]
    tauto))

theorem compareEntitySnapshots_swap_perm (uid : Nat) (a b : Option HSnap) :
    ((compareEntitySnapshots uid a b).map swapChange).Perm (compareEntitySnapshots uid b a) := by
  cases a with
  | none =>
    cases b with
    | none => exact List.Perm.refl _
    | some te => exact List.Perm.refl _
  | some fe =>
    cases b with
    | none => exact List.Perm.refl _
    | some te =>
      unfold compareEntitySnapshots
      rw [List.map_append, List.map_append]
      refine List.Perm.append (List.Perm.append ?p1 ?p2)
        (compareDetails_swap_perm uid fe.details te.details)
      case p1 =>
        by_cases h : fe.display_name = te.display_name
        · rw [if_neg (by simp [h]), if_neg (by simp [h])]
          exact List.Perm.refl _
        · rw [if_pos h, if_pos (Ne.symm h)]
          exact List.Perm.refl _
      case p2 =>
        by_cases h : fe.entity_type = te.entity_type
        · rw [if_neg (by simp [h]), if_neg (by simp [h])]
          exact List.Perm.refl _
        · rw [if_pos h, if_pos (Ne.symm h)]
          exact List.Perm.refl _

/-- C9 (amended): the snapshot-comparison diff (the variant with no
parameter validation) is symmetric up to direction - swapping every
change of `diff(a, b)` (from/to values exchanged, created/deleted and
detail_added/detail_removed interchanged) yields exactly the change set
of `diff(b, a)` - while the parameter-validated variant rejects any
call with `from >= to` with a ValueError, so it can never be evaluated
in both directions. -/
theorem diff_symmetry_up_to_direction (db : DB) (a b : Int) (h : b ≤ a) :
    ((get_entities_diff db a b).map swapChange).Perm (get_entities_diff db b a) ∧
    get_entities_diff_validated db a b =
      .error "from datetime must be earlier than to datetime" := by
  constructor
  · unfold get_entities_diff
    rw [List.map_flatMap]
    have hpt : ∀ u ∈ dedupFirst ((get_entities_as_of db a).map (fun s => s.entity_uid) ++
        (get_entities_as_of db b).map (fun s => s.entity_uid)),
        ((compareEntitySnapshots u (snapLookup (get_entities_as_of db a) u)
            (snapLookup (get_entities_as_of db b) u)).map swapChange).Perm
          (compareEntitySnapshots u (snapLookup (get_entities_as_of db b) u)
            (snapLookup (get_entities_as_of db a) u)) :=
      fun u _ => compareEntitySnapshots_swap_perm u _ _
    exact (List.Perm.flatMap_left _ hpt).trans
      (List.Perm.flatMap_right _ (dedupFirst_perm (by
        intro x
        simp only [List.mem_append]
        tauto)))
  · have hval : validate_diff_params a b =
        .error "from datetime must be earlier than to datetime" := by
      unfold validate_diff_params
      rw [if_pos (by rw [decide_eq_true_iff]; omega)]
    unfold get_entities_diff_validated
    simp only [hval]

/-- C9 counterexample: on the two-version scenario store the validated
diff succeeds for `(15, 25)` but raises a ValueError for the swapped
pair `(25, 15)`, so `diff(b, a)` yields no change set at all, let alone
the direction-swapped one. -/
theorem validated_diff_rejects_reversed :
    (get_entities_diff_validated scenDb2 15 25).isOk = true ∧
    get_entities_diff_validated scenDb2 25 15 =
      .error "from datetime must be earlier than to datetime" :=
  ⟨by decide, by decide⟩

/-- C9 witness: the symmetry theorem applied to the scenario store at
the concrete pair `(25, 15)`. -/
theorem diff_symmetry_witness :
    ((get_entities_diff scenDb2 25 15).map swapChange).Perm (get_entities_diff scenDb2 15 25) ∧
    get_entities_diff_validated scenDb2 25 15 =
      .error "from datetime must be earlier than to datetime" :=
  diff_symmetry_up_to_direction scenDb2 25 15 (by decide)
